import Mathlib

/-!
Shallow embedding of the claim engine of the `resource-prototyping`
repository (Python sources under `src/`): the catalog lookups
(`lookup.py`), the provider generation CAS (`provider.py`), and the
constraint matcher / capacity query / claim executor (`claim.py`).

Python dictionaries are modelled as association lists that keep
insertion order and have unique keys maintained by a `dict.update`
operation; SQL tables are lists of row structures; queries are pure
functions over a `Db` value; raised Python exceptions are the error
side of `Except`.
-/

/-- Exceptions the embedded code can raise.  The first four model Python
builtin exceptions; the rest model the classes of `exception.py`.
The `unknownCode` constructor is modelled from the spec: §7 posits a typed
`UnknownCode` error, but no such class exists anywhere under `src/`; the
constructor exists only so that theorems can compare what the code raises
against what the spec names. -/
inductive PyExc where
  | keyError (key : String)
  | valueError (msg : String)
  | nameError (name : String)
  | stopIteration
  | generationConflict (object_type object_uuid : String)
  | missingInventory (provider resource_type : String)
  | capacityExceeded (provider resource_type : String)
      (requested_amount total total_used reserved : Int)
      (allocation_ratio : ℚ)
  | minUnitViolation (provider resource_type : String)
      (min_unit requested_amount : Int)
  | maxUnitViolation (provider resource_type : String)
      (max_unit requested_amount : Int)
  | stepSizeViolation (provider resource_type : String)
      (step_size requested_amount : Int)
  | unknownCode (kind : String)
deriving Repr, DecidableEq

/-- A type catalog table (`provider_types`, `consumer_types`,
`resource_types`, `capabilities`): rows of (string code, integer id). -/
abbrev Catalog := List (String × Nat)

/-- Python dict lookup on a catalog map keyed by code. -/
def catalogLookup (cat : Catalog) (code : String) : Option Nat :=
  match cat with
  | [] => none
  | (c, i) :: rest => if c = code then some i else catalogLookup rest code

/-- `lookup.provider_type_id_from_code`: subscripting the cached dict
raises the builtin `KeyError` when the code is absent. -/
def provider_type_id_from_code (cat : Catalog) (code : String) :
    Except PyExc Nat :=
  match catalogLookup cat code with
  | some i => Except.ok i
  | none => Except.error (PyExc.keyError code)

/-- `lookup.consumer_type_id_from_code`. -/
def consumer_type_id_from_code (cat : Catalog) (code : String) :
    Except PyExc Nat :=
  match catalogLookup cat code with
  | some i => Except.ok i
  | none => Except.error (PyExc.keyError code)

/-- `lookup.resource_type_id_from_code`. -/
def resource_type_id_from_code (cat : Catalog) (code : String) :
    Except PyExc Nat :=
  match catalogLookup cat code with
  | some i => Except.ok i
  | none => Except.error (PyExc.keyError code)

/-- `lookup.capability_id_from_code`. -/
def capability_id_from_code (cat : Catalog) (code : String) :
    Except PyExc Nat :=
  match catalogLookup cat code with
  | some i => Except.ok i
  | none => Except.error (PyExc.keyError code)

/-- `claim._cap_id_from_code`: queries the `capabilities` table and raises
`ValueError` when no row matches. -/
def cap_id_from_code (caps : Catalog) (cap : String) : Except PyExc Nat :=
  match catalogLookup caps cap with
  | some i => Except.ok i
  | none =>
      Except.error (PyExc.valueError
        ("Could not find ID for capability " ++ cap))

/-- `claim._rt_id_from_code`: queries the `resource_types` table and raises
`ValueError` when no row matches. -/
def rt_id_from_code (rts : Catalog) (resource_type : String) :
    Except PyExc Nat :=
  match catalogLookup rts resource_type with
  | some i => Except.ok i
  | none =>
      Except.error (PyExc.valueError
        ("Could not find ID for resource type " ++ resource_type))

/-- A row of the `providers` table, which doubles as the in-memory
`resource_models.Provider` object restricted to the fields the claim
engine uses (`id`, `uuid`, `generation`). -/
structure Provider where
  id : Nat
  uuid : String
  generation : Int
deriving Repr, DecidableEq

/-- The WHERE predicate of `provider.increment_generation`'s UPDATE:
`id = ? AND generation = ?`. -/
def genCasMatch (p row : Provider) : Bool :=
  row.id = p.id && row.generation = p.generation

/-- `provider.increment_generation`: the conditional update
`SET generation = provider.generation + 1 WHERE id = ? AND generation = ?`
against the `providers` table, raising `GenerationConflict` when the
affected row count is not exactly 1 (in which case the enclosing
transaction is rolled back, i.e. the table is unchanged). -/
def increment_generation (tbl : List Provider) (p : Provider) :
    Except PyExc (List Provider) :=
  let updated := tbl.map (fun row =>
    if genCasMatch p row then { row with generation := p.generation + 1 }
    else row)
  if (tbl.filter (genCasMatch p)).length = 1 then Except.ok updated
  else Except.error (PyExc.generationConflict "runm.provider" p.uuid)

/-- Generic association-list store mirroring Python dict mutation
`d[k] = v`: overwrite in place when the key exists, else append. -/
def assocSet {κ α : Type} [DecidableEq κ] (d : List (κ × α)) (k : κ) (v : α) :
    List (κ × α) :=
  if d.any (fun kv => kv.1 = k) then
    d.map (fun kv => if kv.1 = k then (k, v) else kv)
  else d ++ [(k, v)]

/-- Python dict lookup `d.get(k)`. -/
def assocLookup {κ α : Type} [DecidableEq κ] (d : List (κ × α)) (k : κ) :
    Option α :=
  match d with
  | [] => none
  | kv :: rest => if kv.1 = k then some kv.2 else assocLookup rest k

/-- A Python dict of provider internal id to provider uuid, in insertion
order. -/
abbrev PyDict := List (Nat × String)

/-- Python `d.update(new)`. -/
def dictUpdate {κ α : Type} [DecidableEq κ] (d new : List (κ × α)) :
    List (κ × α) :=
  new.foldl (fun acc kv => assocSet acc kv.1 kv.2) d

/-- The dict comprehension `{r[0]: r[1] for r in rows}` over result rows. -/
def dictOfRows {κ α : Type} [DecidableEq κ] (rows : List (κ × α)) :
    List (κ × α) :=
  dictUpdate [] rows

/-- `set(d)` over a Python dict: its keys. -/
def dictKeys {κ α : Type} [DecidableEq κ] (d : List (κ × α)) : List κ :=
  (d.map (fun kv => kv.1)).dedup

/-- `claim.UNLIMITED`. -/
def UNLIMITED : Int := -1

/-- `sel.limit(limit)` applied unless the limit is `UNLIMITED`. -/
def applyLimit {α : Type} (limit : Int) (rows : List α) : List α :=
  if limit ≠ UNLIMITED then rows.take limit.toNat else rows

/-- A row of the `inventories` table. -/
structure InventoryRow where
  provider_id : Nat
  resource_type_id : Nat
  total : Int
  reserved : Int
  min_unit : Int
  max_unit : Int
  step_size : Int
  allocation_ratio : ℚ
deriving Repr, DecidableEq

/-- A row of the `allocations` table. -/
structure AllocationRow where
  id : Nat
  consumer_id : Nat
  acquire_time : Int
  release_time : Int
deriving Repr, DecidableEq

/-- A row of the `allocation_items` table. -/
structure AllocationItemRow where
  allocation_id : Nat
  provider_id : Nat
  resource_type_id : Nat
  used : Int
deriving Repr, DecidableEq

/-- A row of the `provider_capabilities` table. -/
structure ProviderCapRow where
  provider_id : Nat
  capability_id : Nat
deriving Repr, DecidableEq

/-- The relational state the claim engine reads. -/
structure Db where
  providers : List Provider
  provider_capabilities : List ProviderCapRow
  inventories : List InventoryRow
  allocations : List AllocationRow
  allocation_items : List AllocationItemRow
  capabilities : Catalog
  resource_types : Catalog
deriving Repr

/-- `claim.CapabilityConstraint`; `None` is modelled as the empty list,
matching Python truthiness. -/
structure CapabilityConstraint where
  require_caps : List String := []
  forbid_caps : List String := []
  any_caps : List String := []
deriving Repr, DecidableEq

/-- `claim.ResourceConstraint`. -/
structure ResourceConstraint where
  resource_type : String
  min_amount : Int
  max_amount : Int
  capability_constraint : Option CapabilityConstraint := none
deriving Repr, DecidableEq

/-- `claim._find_providers_with_all_caps`: join providers to
`provider_capabilities` restricted to the requested capability ids,
group by provider, `HAVING COUNT(pc.capability_id) == len(caps)` (a group
exists only when at least one join row does). -/
def find_providers_with_all_caps (db : Db) (caps : List String)
    (limit : Int := 50) : Except PyExc PyDict := do
  let cap_ids ← caps.mapM (cap_id_from_code db.capabilities)
  let groups := db.providers.filter (fun p =>
    let matching := db.provider_capabilities.filter (fun pc =>
      pc.provider_id = p.id && cap_ids.contains pc.capability_id)
    decide (matching.length = caps.length ∧ matching.length ≠ 0))
  let rows := (applyLimit limit groups).map (fun p => (p.id, p.uuid))
  pure (dictOfRows rows)

/-- `claim._find_providers_with_any_caps`: join providers to
`provider_capabilities` restricted to the requested capability ids, one
result row per joined pair (the dict comprehension dedups providers). -/
def find_providers_with_any_caps (db : Db) (caps : List String)
    (limit : Int := 50) : Except PyExc PyDict := do
  let cap_ids ← caps.mapM (cap_id_from_code db.capabilities)
  let rows := db.providers.flatMap (fun p =>
    (db.provider_capabilities.filter (fun pc =>
      pc.provider_id = p.id && cap_ids.contains pc.capability_id)).map
        (fun _ => (p.id, p.uuid)))
  pure (dictOfRows (applyLimit limit rows))

/-- `claim._select_add_capability_constraint`, as the list of provider rows
(with join multiplicity) the decorated relation admits.  The `require`
branches translate the documented joins.  The `forbid`/`any` branch of the
source builds `conds = [p_tbl.c.id == p_caps.c.provider_id]`, but no name
`p_caps` is in scope (the local is `p_caps_tbl`), so reaching it raises
`NameError` (the branch would go on to reference the equally undefined
`forbid_cap_ds` / `any_cap_ds`). -/
def select_add_capability_constraint (db : Db)
    (constraint : CapabilityConstraint) : Except PyExc (List Provider) := do
  let relation ←
    (if constraint.require_caps.length = 1 then do
      let cap_id ← cap_id_from_code db.capabilities
        (constraint.require_caps.headD "")
      pure (db.providers.flatMap (fun p =>
        (db.provider_capabilities.filter (fun pc =>
          pc.provider_id = p.id && pc.capability_id = cap_id)).map
            (fun _ => p)))
    else if constraint.require_caps ≠ [] then do
      let require_cap_ids ← constraint.require_caps.mapM
        (cap_id_from_code db.capabilities)
      pure (db.providers.filter (fun p =>
        let matching := db.provider_capabilities.filter (fun pc =>
          pc.provider_id = p.id && require_cap_ids.contains pc.capability_id)
        decide (matching.length = constraint.require_caps.length
          ∧ matching.length ≠ 0)))
    else pure db.providers)
  if constraint.forbid_caps ≠ [] ∨ constraint.any_caps ≠ [] then
    Except.error (PyExc.nameError "p_caps")
  else
    pure relation

/-- The `allocs_in_window` subquery shared by the capacity query and
Phase-1 re-validation: ids of allocations with
`acquire_time >= $CLAIM_START AND release_time < $CLAIM_END`, grouped
(hence distinct) by id. -/
def allocs_in_window (db : Db) (acquire_time release_time : Int) :
    List Nat :=
  ((db.allocations.filter (fun a =>
    acquire_time ≤ a.acquire_time && a.release_time < release_time)).map
      (fun a => a.id)).dedup

/-- The source's `sa.outerjoin(alloc_item_tbl, allocs_in_window_subq, …)`:
a LEFT OUTER JOIN, so an allocation item row survives (once) even when its
allocation is not in the window.  (The docstrings of both call sites
document an inner `JOIN` here.) -/
def usageJoinRows (db : Db) (window_ids : List Nat) :
    List AllocationItemRow :=
  db.allocation_items.flatMap (fun ai =>
    let matched := window_ids.filter (fun w => w = ai.allocation_id)
    if matched = [] then [ai] else matched.map (fun _ => ai))

/-- The `usages` subquery of `_find_providers_with_resource`: group the
(left-join) rows with the requested resource type by provider and sum
`used`. -/
def usages_subquery (db : Db) (acquire_time release_time : Int)
    (rt_id : Nat) : List (Nat × Int) :=
  let rows := (usageJoinRows db
    (allocs_in_window db acquire_time release_time)).filter
      (fun ai => ai.resource_type_id = rt_id)
  ((rows.map (fun ai => ai.provider_id)).dedup).map (fun pid =>
    (pid, ((rows.filter (fun ai => ai.provider_id = pid)).map
      (fun ai => ai.used)).sum))

/-- `claim._find_providers_with_resource` (Primitive A). -/
def find_providers_with_resource (db : Db)
    (acquire_time release_time : Int)
    (resource_constraint : ResourceConstraint) (exclude : PyDict := [])
    (limit : Int := 50) : Except PyExc PyDict := do
  let rt_id ← rt_id_from_code db.resource_types
    resource_constraint.resource_type
  let usages := usages_subquery db acquire_time release_time rt_id
  let join_to ← match resource_constraint.capability_constraint with
    | some cap_constraint =>
        select_add_capability_constraint db cap_constraint
    | none => pure db.providers
  let amount := resource_constraint.max_amount
  let joined := join_to.flatMap (fun p =>
    (db.inventories.filter (fun i =>
      i.provider_id = p.id && i.resource_type_id = rt_id)).map
        (fun i => (p, i)))
  let filtered := joined.filter (fun pi =>
    let i := pi.2
    let total_used : Int := (assocLookup usages pi.1.id).getD 0
    decide (i.resource_type_id = rt_id
      ∧ ((i.total : ℚ) - (i.reserved : ℚ)) * i.allocation_ratio
          ≥ (amount : ℚ) + (total_used : ℚ)
      ∧ i.min_unit ≤ amount
      ∧ i.max_unit ≥ amount
      ∧ amount % i.step_size = 0
      ∧ (exclude ≠ [] → ¬ (dictKeys exclude).contains pi.1.id)))
  let rows := applyLimit limit (filtered.map (fun pi => (pi.1.id, pi.1.uuid)))
  pure (dictOfRows rows)

/-- `claim.ClaimRequestGroup`, restricted to the fields the matcher reads
(`options`, `provider_group_constraints` and `distance_constraints` are
stored by the source but never read during matching). -/
structure ClaimRequestGroup where
  resource_constraints : List ResourceConstraint := []
  capability_constraints : List CapabilityConstraint := []
deriving Repr, DecidableEq

/-- `claim.ClaimRequest` (the consumer is carried as its uuid). -/
structure ClaimRequest where
  consumer : String
  request_groups : List ClaimRequestGroup
  acquire_time : Int
  release_time : Int
deriving Repr, DecidableEq

/-- `resource_models.AllocationItem`. -/
structure AllocationItem where
  provider : Provider
  resource_type : String
  used : Int
deriving Repr, DecidableEq

/-- `claim.Claim`. -/
structure Claim where
  acquire_time : Int
  release_time : Int
  allocation_items : List AllocationItem
  allocation_item_to_request_groups : List (Nat × Nat)
deriving Repr, DecidableEq

/-- `claim.MatchContext`. -/
structure MatchContext where
  claim_request : ClaimRequest
  started_filtering : Bool
  request_group : ClaimRequestGroup
  matches_ : PyDict
  exclude : PyDict
deriving Repr, DecidableEq

/-- `MatchContext.__init__` (the group is passed directly rather than by
index into `claim_request.request_groups`). -/
def MatchContext.init (claim_request : ClaimRequest)
    (group : ClaimRequestGroup) : MatchContext :=
  { claim_request := claim_request
    started_filtering := false
    request_group := group
    matches_ := []
    exclude := [] }

/-- `MatchContext.match_or`: union when filtering has begun, else install
and latch; returns whether any matches remain. -/
def MatchContext.match_or (mctx : MatchContext) (new_matches : PyDict) :
    Bool × MatchContext :=
  if mctx.started_filtering then
    let m := dictUpdate mctx.matches_ new_matches
    (m.length > 0, { mctx with matches_ := m })
  else
    (new_matches.length > 0,
      { mctx with matches_ := new_matches, started_filtering := true })

/-- `MatchContext.match_and`: intersect by key when filtering has begun,
else install and latch; returns whether any matches remain. -/
def MatchContext.match_and (mctx : MatchContext) (new_matches : PyDict) :
    Bool × MatchContext :=
  if mctx.started_filtering then
    let m := mctx.matches_.filter (fun kv =>
      (dictKeys mctx.matches_).contains kv.1
        && (dictKeys new_matches).contains kv.1)
    (m.length > 0, { mctx with matches_ := m })
  else
    (new_matches.length > 0,
      { mctx with matches_ := new_matches, started_filtering := true })

/-- `MatchContext.exclude_or`. -/
def MatchContext.exclude_or (mctx : MatchContext) (new_exclude : PyDict) :
    MatchContext :=
  { mctx with exclude := dictUpdate mctx.exclude new_exclude }

/-- `claim.ConstraintMatchResult` together with the stray `excludes`
attribute: the forbid-only branch of
`_providers_matching_capability_constraint` executes
`res.excludes = providers`, and since the class defines only `exclude`,
Python silently creates a new attribute `excludes` and leaves
`res.exclude` empty. -/
structure ConstraintMatchResult where
  matches_ : PyDict := []
  exclude : PyDict := []
  excludes : PyDict := []
deriving Repr, DecidableEq

/-- The possible outcomes of a capability-constraint evaluation: the two
identity sentinels `NoMatches` and `NoExclude`, or a freshly constructed
`ConstraintMatchResult`. -/
inductive CapMatchOutcome where
  | noMatches
  | noExclude
  | result (res : ConstraintMatchResult)
deriving Repr, DecidableEq

/-- The dict comprehension closing
`_providers_matching_capability_constraint`:
`{k: v for k, v in cap_providers.items() if k in matched_provs}`. -/
def capMatchesOf (cap_providers : PyDict) (matched_provs : List Nat) :
    PyDict :=
  cap_providers.filter (fun kv => matched_provs.contains kv.1)

/-- The `forbid` stage of `_providers_matching_capability_constraint`,
entered with the accumulated `matched_provs` set and `cap_providers`
dict. -/
def pmccForbidStage (db : Db) (cap_constraint : CapabilityConstraint)
    (matched_provs : List Nat) (cap_providers : PyDict) :
    Except PyExc CapMatchOutcome := do
  if cap_constraint.forbid_caps ≠ [] then do
    let providers ← find_providers_with_any_caps db
      cap_constraint.forbid_caps UNLIMITED
    if providers ≠ [] then
      let cap_provider_ids := dictKeys providers
      if matched_provs ≠ [] then
        let remaining := matched_provs.filter
          (fun k => ¬ cap_provider_ids.contains k)
        if remaining = [] then pure CapMatchOutcome.noMatches
        else pure (CapMatchOutcome.result
          { matches_ := capMatchesOf cap_providers remaining
            exclude := []
            excludes := [] })
      else
        pure (CapMatchOutcome.result
          { matches_ := capMatchesOf cap_providers matched_provs
            exclude := []
            excludes := providers })
    else
      if cap_constraint.require_caps = [] ∧ cap_constraint.any_caps = [] then
        pure CapMatchOutcome.noExclude
      else
        pure (CapMatchOutcome.result
          { matches_ := capMatchesOf cap_providers matched_provs })
  else
    pure (CapMatchOutcome.result
      { matches_ := capMatchesOf cap_providers matched_provs })

/-- The `any` stage of `_providers_matching_capability_constraint`. -/
def pmccAnyStage (db : Db) (cap_constraint : CapabilityConstraint)
    (matched_provs : List Nat) (cap_providers : PyDict) :
    Except PyExc CapMatchOutcome := do
  if cap_constraint.any_caps ≠ [] then do
    let providers ← find_providers_with_any_caps db
      cap_constraint.any_caps 50
    if providers = [] then pure CapMatchOutcome.noMatches
    else
      let cap_provider_ids := dictKeys providers
      if matched_provs ≠ [] then
        let inter := matched_provs.filter
          (fun k => cap_provider_ids.contains k)
        if inter = [] then pure CapMatchOutcome.noMatches
        else
          pmccForbidStage db cap_constraint inter
            (dictUpdate cap_providers providers)
      else
        pmccForbidStage db cap_constraint cap_provider_ids
          (dictUpdate cap_providers providers)
  else
    pmccForbidStage db cap_constraint matched_provs cap_providers

/-- `claim._providers_matching_capability_constraint`, split into its
`require`, `any` and `forbid` stages. -/
def providers_matching_capability_constraint (db : Db)
    (cap_constraint : CapabilityConstraint) :
    Except PyExc CapMatchOutcome := do
  if cap_constraint.require_caps ≠ [] then do
    let providers ← find_providers_with_all_caps db
      cap_constraint.require_caps 50
    if providers = [] then pure CapMatchOutcome.noMatches
    else
      pmccAnyStage db cap_constraint (dictKeys providers)
        (dictUpdate [] providers)
  else
    pmccAnyStage db cap_constraint [] []

/-- The loop body of `claim._process_capability_constraints`. -/
def pccLoop (db : Db) : List CapabilityConstraint → MatchContext →
    Except PyExc (Bool × MatchContext)
  | [], mctx => pure (true, mctx)
  | cap_constraint :: rest, mctx => do
    if cap_constraint.require_caps = [] ∧ cap_constraint.forbid_caps = []
        ∧ cap_constraint.any_caps = [] then
      pccLoop db rest mctx
    else do
      let res ← providers_matching_capability_constraint db cap_constraint
      match res with
      | CapMatchOutcome.noMatches => pure (false, mctx)
      | CapMatchOutcome.noExclude => pccLoop db rest mctx
      | CapMatchOutcome.result r =>
        let mctx := if r.exclude ≠ [] then mctx.exclude_or r.exclude
          else mctx
        let mctx := if r.matches_ ≠ [] then (mctx.match_or r.matches_).2
          else mctx
        pccLoop db rest mctx

/-- `claim._process_capability_constraints`. -/
def process_capability_constraints (db : Db) (mctx : MatchContext) :
    Except PyExc (Bool × MatchContext) :=
  if mctx.request_group.capability_constraints = [] then pure (true, mctx)
  else pccLoop db mctx.request_group.capability_constraints mctx

/-- The loop body of `claim._process_resource_constraints`. -/
def prcLoop (db : Db) : List ResourceConstraint → MatchContext →
    Except PyExc (Bool × MatchContext)
  | [], mctx => pure (true, mctx)
  | rc_constraint :: rest, mctx => do
    let providers ← find_providers_with_resource db
      mctx.claim_request.acquire_time mctx.claim_request.release_time
      rc_constraint mctx.exclude 50
    let step := mctx.match_and providers
    if step.1 then prcLoop db rest step.2
    else pure (false, step.2)

/-- `claim._process_resource_constraints`. -/
def process_resource_constraints (db : Db) (mctx : MatchContext) :
    Except PyExc (Bool × MatchContext) :=
  prcLoop db mctx.request_group.resource_constraints mctx

/-- `claim._process_claim_request_group`.  `iter(mctx.matches_).next()` on
an empty dict raises `StopIteration`; the chosen in-memory Provider object
is built with only `id` and `uuid` set (its generation is never read on
this path and is embedded as 0). -/
def process_claim_request_group (db : Db) (claim_request : ClaimRequest)
    (group : ClaimRequestGroup) : Except PyExc (List AllocationItem) := do
  let mctx := MatchContext.init claim_request group
  let capRes ← process_capability_constraints db mctx
  if capRes.1 = false then pure []
  else do
    let rcRes ← process_resource_constraints db capRes.2
    if rcRes.1 = false then pure []
    else
      match rcRes.2.matches_ with
      | [] => Except.error PyExc.stopIteration
      | (chosen_id, chosen_uuid) :: _ =>
        let chosen : Provider :=
          { id := chosen_id, uuid := chosen_uuid, generation := 0 }
        pure (rcRes.2.request_group.resource_constraints.map (fun rc =>
          { provider := chosen
            resource_type := rc.resource_type
            used := rc.max_amount }))

/-- The `item_to_group_map` built by `claim.process_claim_request`: for
each item index (in concatenation order) the index of its originating
request group. -/
def buildItemGroupMap (groupItems : List (List AllocationItem)) :
    List (Nat × Nat) :=
  (groupItems.enum.flatMap (fun gi => gi.2.map (fun _ => gi.1))).enum

/-- `claim.process_claim_request`: always returns a single-element list
holding one `Claim` over the concatenated allocation items. -/
def process_claim_request (db : Db) (claim_request : ClaimRequest) :
    Except PyExc (List Claim) := do
  let groupItems ← claim_request.request_groups.mapM
    (fun g => process_claim_request_group db claim_request g)
  pure [{ acquire_time := claim_request.acquire_time
          release_time := claim_request.release_time
          allocation_items := groupItems.flatten
          allocation_item_to_request_groups := buildItemGroupMap groupItems }]

/-- `claim.Usage`. -/
structure Usage where
  total : Int
  reserved : Int
  min_unit : Int
  max_unit : Int
  step_size : Int
  allocation_ratio : ℚ
  total_used : Int
deriving Repr, DecidableEq

/-- `claim.ProviderUsages`: the provider object plus a dict, keyed by
resource type internal id, of `Usage` objects. -/
structure ProviderUsages where
  provider : Provider
  usages : List (Nat × Usage)
deriving Repr, DecidableEq

/-- One result row of the Phase-1 re-validation query of
`_check_provider_capacity`, with `usages.total_used` already coalesced to
0 in the SELECT. -/
structure CheckRec where
  provider_id : Nat
  provider_uuid : String
  provider_generation : Int
  resource_type_id : Nat
  total : Int
  reserved : Int
  min_unit : Int
  max_unit : Int
  step_size : Int
  allocation_ratio : ℚ
  total_used : Int
deriving Repr, DecidableEq

/-- The `usages` subquery of `_check_provider_capacity`: left-join
allocation items to the windowed allocations (the join keeps every item,
see `usageJoinRows`), restrict to the claim's resource types and
providers, group by (provider, resource type) and sum `used`. -/
def check_usages_subquery (db : Db) (acquire_time release_time : Int)
    (p_ids rt_ids : List Nat) : List ((Nat × Nat) × Int) :=
  let rows := (usageJoinRows db
    (allocs_in_window db acquire_time release_time)).filter (fun ai =>
      rt_ids.contains ai.resource_type_id && p_ids.contains ai.provider_id)
  ((rows.map (fun ai => (ai.provider_id, ai.resource_type_id))).dedup).map
    (fun pr => (pr, ((rows.filter (fun ai =>
      ai.provider_id = pr.1 && ai.resource_type_id = pr.2)).map
        (fun ai => ai.used)).sum))

/-- One result row of the main SELECT of `_check_provider_capacity`, for
a (provider, inventory) join pair, with the usage left-joined and
coalesced to 0. -/
def mkCheckRec (usages : List ((Nat × Nat) × Int)) (p : Provider)
    (i : InventoryRow) : CheckRec :=
  { provider_id := p.id
    provider_uuid := p.uuid
    provider_generation := p.generation
    resource_type_id := i.resource_type_id
    total := i.total
    reserved := i.reserved
    min_unit := i.min_unit
    max_unit := i.max_unit
    step_size := i.step_size
    allocation_ratio := i.allocation_ratio
    total_used := (assocLookup usages (p.id, i.resource_type_id)).getD 0 }

/-- The main SELECT of `_check_provider_capacity`: providers joined to
inventories for the claim's resource types, left-joined to the usage
subquery, restricted to the claim's providers. -/
def check_recs (db : Db) (acquire_time release_time : Int)
    (p_ids rt_ids : List Nat) : List CheckRec :=
  let usages := check_usages_subquery db acquire_time release_time
    p_ids rt_ids
  db.providers.flatMap (fun p =>
    ((db.inventories.filter (fun i =>
      i.provider_id = p.id && rt_ids.contains i.resource_type_id)).filter
        (fun i => rt_ids.contains i.resource_type_id
          && p_ids.contains p.id)).map (fun i => mkCheckRec usages p i))

/-- The `Usage` object built from one re-validation row. -/
def usageOfRec (rec : CheckRec) : Usage :=
  { total := rec.total
    reserved := rec.reserved
    min_unit := rec.min_unit
    max_unit := rec.max_unit
    step_size := rec.step_size
    allocation_ratio := rec.allocation_ratio
    total_used := rec.total_used }

/-- One iteration of the `for rec in recs` loop building the
`provider_usages` dict of `_check_provider_capacity`. -/
def addCheckRec (acc : List (Nat × ProviderUsages)) (rec : CheckRec) :
    List (Nat × ProviderUsages) :=
  let pu := match assocLookup acc rec.provider_id with
    | some pu => pu
    | none =>
        { provider := { id := rec.provider_id, uuid := rec.provider_uuid,
                        generation := rec.provider_generation }
          usages := [] }
  let newUsages := assocSet pu.usages rec.resource_type_id (usageOfRec rec)
  assocSet acc rec.provider_id { pu with usages := newUsages }

/-- The first `for alloc_item in claim_obj.allocation_items` loop of
`_check_provider_capacity`: raise `MissingInventory` for the first item
whose provider, or whose (provider, resource type) pair, has no
re-validation row. -/
def checkMissingLoop (db : Db) (pus : List (Nat × ProviderUsages)) :
    List AllocationItem → Except PyExc Unit
  | [] => pure ()
  | it :: rest =>
    match assocLookup pus it.provider.id with
    | none =>
        Except.error (PyExc.missingInventory it.provider.uuid
          it.resource_type)
    | some pu => do
      let alloc_rt_id ← rt_id_from_code db.resource_types it.resource_type
      match assocLookup pu.usages alloc_rt_id with
      | none =>
          Except.error (PyExc.missingInventory it.provider.uuid
            it.resource_type)
      | some _ => checkMissingLoop db pus rest

/-- The second item loop of `_check_provider_capacity`: min unit, max
unit, step size and capacity checks, in source order.  (The dict
subscripts cannot fail here because the first loop ran; a failed
subscript would be Python's `KeyError`.) -/
def checkUnitsLoop (db : Db) (pus : List (Nat × ProviderUsages)) :
    List AllocationItem → Except PyExc Unit
  | [] => pure ()
  | it :: rest => do
    let alloc_rt_id ← rt_id_from_code db.resource_types it.resource_type
    match assocLookup pus it.provider.id with
    | none => Except.error (PyExc.keyError (toString it.provider.id))
    | some pu =>
      match assocLookup pu.usages alloc_rt_id with
      | none => Except.error (PyExc.keyError (toString alloc_rt_id))
      | some usage =>
        let amount_needed := it.used
        if amount_needed < usage.min_unit then
          Except.error (PyExc.minUnitViolation it.provider.uuid
            it.resource_type usage.min_unit amount_needed)
        else if amount_needed > usage.max_unit then
          Except.error (PyExc.maxUnitViolation it.provider.uuid
            it.resource_type usage.max_unit amount_needed)
        else if amount_needed % usage.step_size ≠ 0 then
          Except.error (PyExc.stepSizeViolation it.provider.uuid
            it.resource_type usage.step_size amount_needed)
        else if ((usage.total : ℚ) - (usage.reserved : ℚ))
            * usage.allocation_ratio
            < (usage.total_used : ℚ) + (amount_needed : ℚ) then
          Except.error (PyExc.capacityExceeded it.provider.uuid
            it.resource_type amount_needed usage.total usage.total_used
            usage.reserved usage.allocation_ratio)
        else checkUnitsLoop db pus rest

/-- `claim._check_provider_capacity` (Phase-1 re-validation): re-read
inventory, generation and usage, raise a typed failure for the first
violating item, and on success return the dict, keyed by provider uuid,
of Provider objects carrying the generation read by this query. -/
def check_provider_capacity (db : Db) (claim : Claim) :
    Except PyExc (List (String × Provider)) := do
  let p_ids := (claim.allocation_items.map (fun it => it.provider.id)).dedup
  let rt_ids_all ← claim.allocation_items.mapM
    (fun it => rt_id_from_code db.resource_types it.resource_type)
  let rt_ids := rt_ids_all.dedup
  let provider_usages := (check_recs db claim.acquire_time
    claim.release_time p_ids rt_ids).foldl addCheckRec []
  checkMissingLoop db provider_usages claim.allocation_items
  checkUnitsLoop db provider_usages claim.allocation_items
  pure (dictOfRows (provider_usages.map
    (fun kv => (kv.2.provider.uuid, kv.2.provider))))

/-- The generation-bump loop of `claim.execute`
(`for p in provider_map.values(): provider.increment_generation(sess, p)`)
over the providers table. -/
def executeIncrementGenerations (tbl : List Provider)
    (provider_map : List (String × Provider)) :
    Except PyExc (List Provider) :=
  provider_map.foldlM (fun t kv => increment_generation t kv.2) tbl

/-! ## Concrete fixtures used by witnesses and counterexamples -/

/-- One provider `p1` with inventory for resource type `r`
(total 10, reserved 0, min_unit 1, max_unit 10, step 1, ratio 1) and one
allocation over `[0, 5)` whose single item uses 10 units of `r` on that
provider. -/
def dbWindow : Db :=
  { providers := [⟨1, "p1", 1⟩]
    provider_capabilities := []
    inventories := [⟨1, 1, 10, 0, 1, 10, 1, 1⟩]
    allocations := [⟨1, 1, 0, 5⟩]
    allocation_items := [⟨1, 1, 1, 10⟩]
    capabilities := [("c1", 1)]
    resource_types := [("r", 1)] }

/-- `dbWindow` without any existing allocation. -/
def dbClean : Db := { dbWindow with allocations := [], allocation_items := [] }

/-- Two providers `u1`, `u2`, both with ample inventory of `r`; provider 1
carries capability `cforb`. -/
def dbTwo : Db :=
  { providers := [⟨1, "u1", 1⟩, ⟨2, "u2", 1⟩]
    provider_capabilities := [⟨1, 1⟩]
    inventories := [⟨1, 1, 10, 0, 1, 10, 1, 1⟩, ⟨2, 1, 10, 0, 1, 10, 1, 1⟩]
    allocations := []
    allocation_items := []
    capabilities := [("cforb", 1)]
    resource_types := [("r", 1)] }

/-- `dbTwo` with no provider carrying any capability. -/
def dbTwoClean : Db := { dbTwo with provider_capabilities := [] }

/-- A one-group request: forbid `cforb`, claim 1 unit of `r` over
`[10, 20)`. -/
def reqForbid : ClaimRequest :=
  { consumer := "c"
    request_groups := [{ resource_constraints := [⟨"r", 1, 1, none⟩]
                         capability_constraints := [⟨[], ["cforb"], []⟩] }]
    acquire_time := 10
    release_time := 20 }

/-- A one-group request: require `cforb`, claim 1 unit of `r` over
`[10, 20)`. -/
def reqRequire : ClaimRequest :=
  { consumer := "c"
    request_groups := [{ resource_constraints := [⟨"r", 1, 1, none⟩]
                         capability_constraints := [⟨["cforb"], [], []⟩] }]
    acquire_time := 10
    release_time := 20 }

/-! ## C1 -/

/-- **C1.** The capacity query claims to count only usage from allocations
inside the requested window, and to return a provider whose overlapping
usage is zero when its effective capacity covers the amount.  At this
concrete input the only existing allocation `[0, 5)` lies outside the
requested window `[10, 20)` (the windowed-allocations subquery is empty),
provider 1's inventory satisfies every unit and capacity condition of the
claim (capacity 10 ≥ 5 + 0), yet `_find_providers_with_resource` returns
the empty dict: the LEFT OUTER JOIN of `allocation_items` to
`allocs_in_window` counts the out-of-window usage of 10, contradicting
the function's own docstring (an inner `JOIN`). -/
theorem C1_out_of_window_usage_is_counted :
    allocs_in_window dbWindow 10 20 = []
    ∧ dbWindow.inventories = [⟨1, 1, 10, 0, 1, 10, 1, 1⟩]
    ∧ ((10 : ℚ) - 0) * 1 ≥ (5 : ℚ) + 0
    ∧ (1 : Int) ≤ 5 ∧ (10 : Int) ≥ 5 ∧ (5 : Int) % 1 = 0
    ∧ find_providers_with_resource dbWindow 10 20 ⟨"r", 5, 5, none⟩ [] 50
        = Except.ok []
    ∧ find_providers_with_resource dbClean 10 20 ⟨"r", 5, 5, none⟩ [] 50
        = Except.ok [(1, "p1")] := by
  refine ⟨rfl, rfl, by norm_num, by norm_num, by norm_num, by norm_num,
    by with_unfolding_all rfl, by with_unfolding_all rfl⟩

/-! ## C2 -/

/-- **C2.** `increment_generation` issues the conditional update guarded by
`WHERE id = ? AND generation = ?`; it raises `GenerationConflict` exactly
when the affected row count differs from 1, and on success the row it
matched stores generation exactly one greater than the generation it was
given (rows the guard did not match are untouched). -/
theorem C2_increment_generation_cas (tbl : List Provider) (p : Provider) :
    (increment_generation tbl p
        = Except.error (PyExc.generationConflict "runm.provider" p.uuid)
      ↔ (tbl.filter (genCasMatch p)).length ≠ 1)
    ∧ (∀ tbl', increment_generation tbl p = Except.ok tbl' →
        (tbl.filter (genCasMatch p)).length = 1
        ∧ (∀ row ∈ tbl, genCasMatch p row = true →
            ({ row with generation := p.generation + 1 } : Provider) ∈ tbl')
        ∧ (∀ row ∈ tbl, genCasMatch p row = false → row ∈ tbl')) := by
  constructor
  · by_cases h : (tbl.filter (genCasMatch p)).length = 1 <;>
      simp [increment_generation, h]
  · intro tbl' hok
    by_cases h : (tbl.filter (genCasMatch p)).length = 1
    · have htbl : tbl' = tbl.map (fun row =>
          if genCasMatch p row then
            { row with generation := p.generation + 1 }
          else row) := by
        simp only [increment_generation, h, if_true, if_pos] at hok
        exact (Except.ok.injEq _ _ ▸ hok).symm
      subst htbl
      refine ⟨h, ?_, ?_⟩
      · intro row hrow hcas
        simpa [hcas] using List.mem_map_of_mem (fun row =>
          if genCasMatch p row then
            ({ row with generation := p.generation + 1 } : Provider)
          else row) hrow
      · intro row hrow hcas
        simpa [hcas] using List.mem_map_of_mem (fun row =>
          if genCasMatch p row then
            ({ row with generation := p.generation + 1 } : Provider)
          else row) hrow
    · simp [increment_generation, h] at hok

/-- Witness for C2: on the one-row table at generation 3, the CAS update
succeeds and stores generation 4. -/
theorem C2_increment_generation_cas_witness :
    ({ id := 1, uuid := "u1", generation := (4 : Int) } : Provider)
      ∈ [({ id := 1, uuid := "u1", generation := (4 : Int) } : Provider)] :=
  ((C2_increment_generation_cas [⟨1, "u1", 3⟩] ⟨1, "u1", 3⟩).2
    [⟨1, "u1", 4⟩] (by with_unfolding_all rfl)).2.1 ⟨1, "u1", 3⟩
    (by simp) (by with_unfolding_all rfl)

/-! ## C3 -/

/-- **C3.** For a forbid-only constraint that does match providers, the
source executes `res.excludes = providers` — a stray attribute — so the
constraint result's `exclude` dict stays empty, nothing is ever unioned
into the MatchContext's exclude set, and the forbidden provider is *not*
excluded from the resource pass: at this concrete input provider 1
carries the forbidden capability `cforb`, the constraint evaluation
stashes it in `excludes` while `exclude` is `[]`, and the final claim
allocates on provider 1.  Had the exclude set been propagated, the
resource query would have returned only provider 2. -/
theorem C3_forbidden_provider_not_excluded :
    providers_matching_capability_constraint dbTwo ⟨[], ["cforb"], []⟩
      = Except.ok (CapMatchOutcome.result
          { matches_ := [], exclude := [], excludes := [(1, "u1")] })
    ∧ process_claim_request dbTwo reqForbid
      = Except.ok [⟨10, 20, [⟨⟨1, "u1", 0⟩, "r", 1⟩], [(0, 0)]⟩]
    ∧ dbTwo.provider_capabilities = [⟨1, 1⟩]
    ∧ catalogLookup dbTwo.capabilities "cforb" = some 1
    ∧ find_providers_with_resource dbTwo 10 20 ⟨"r", 1, 1, none⟩
        [(1, "u1")] 50 = Except.ok [(2, "u2")] := by
  refine ⟨by with_unfolding_all rfl, by with_unfolding_all rfl, rfl, rfl,
    by with_unfolding_all rfl⟩

/-! ## C5 -/

/-- **C5.** A resource constraint embedding a capability constraint with a
non-empty `forbid` (or `any`) set does not filter inside the capacity
query: `_select_add_capability_constraint` references the undefined name
`p_caps` and raises `NameError`, so the whole capacity query fails
instead of returning filtered providers.  (The `require`-only embedding
does filter: with the capability present the provider is returned, with a
different required capability the lookup fails.) -/
theorem C5_embedded_forbid_or_any_raises_nameError :
    select_add_capability_constraint dbClean ⟨[], ["c1"], []⟩
      = Except.error (PyExc.nameError "p_caps")
    ∧ select_add_capability_constraint dbClean ⟨[], [], ["c1"]⟩
      = Except.error (PyExc.nameError "p_caps")
    ∧ find_providers_with_resource dbClean 10 20
        ⟨"r", 5, 5, some ⟨[], ["c1"], []⟩⟩ [] 50
      = Except.error (PyExc.nameError "p_caps")
    ∧ find_providers_with_resource dbClean 10 20 ⟨"r", 5, 5, none⟩ [] 50
      = Except.ok [(1, "p1")] := by
  refine ⟨by with_unfolding_all rfl, by with_unfolding_all rfl,
    by with_unfolding_all rfl, by with_unfolding_all rfl⟩

/-! ## C10 -/

/-- **C10.** Frame conditions of the MatchContext combinators: `match_or`
and `match_and` never touch the exclude dict (nor the request fields);
`exclude_or` never touches matches or the latch; and `started_filtering`
is never reset — after `match_or`/`match_and` it is `true`
unconditionally, and `exclude_or` preserves it. -/
theorem C10_match_context_frame (mctx : MatchContext) (d : PyDict) :
    ((mctx.match_or d).2.exclude = mctx.exclude
      ∧ (mctx.match_or d).2.claim_request = mctx.claim_request
      ∧ (mctx.match_or d).2.request_group = mctx.request_group
      ∧ (mctx.match_or d).2.started_filtering = true)
    ∧ ((mctx.match_and d).2.exclude = mctx.exclude
      ∧ (mctx.match_and d).2.claim_request = mctx.claim_request
      ∧ (mctx.match_and d).2.request_group = mctx.request_group
      ∧ (mctx.match_and d).2.started_filtering = true)
    ∧ ((mctx.exclude_or d).matches_ = mctx.matches_
      ∧ (mctx.exclude_or d).started_filtering = mctx.started_filtering
      ∧ (mctx.exclude_or d).claim_request = mctx.claim_request
      ∧ (mctx.exclude_or d).request_group = mctx.request_group) := by
  by_cases h : mctx.started_filtering <;>
    simp [MatchContext.match_or, MatchContext.match_and,
      MatchContext.exclude_or, h]

/-! ## C6 -/

/-- **C6.** When a constraint carries only a non-empty `forbid` set and the
(unlimited) any-caps query for the forbidden capabilities matches zero
providers, constraint evaluation returns the positive sentinel
`NoExclude`, and the group matcher skips the constraint: for a group
whose only capability constraint it is, `_process_capability_constraints`
returns True with the MatchContext entirely unchanged (matches,
exclude and started_filtering included), so the constraint by itself
never reduces `matches`. -/
theorem C6_null_forbid_is_positive (db : Db) (mctx : MatchContext)
    (cap_constraint : CapabilityConstraint)
    (hreq : cap_constraint.require_caps = [])
    (hany : cap_constraint.any_caps = [])
    (hforbid : cap_constraint.forbid_caps ≠ [])
    (hquery : find_providers_with_any_caps db cap_constraint.forbid_caps
      UNLIMITED = Except.ok [])
    (hgroup : mctx.request_group.capability_constraints = [cap_constraint]) :
    providers_matching_capability_constraint db cap_constraint
      = Except.ok CapMatchOutcome.noExclude
    ∧ process_capability_constraints db mctx = Except.ok (true, mctx) := by
  have h1 : providers_matching_capability_constraint db cap_constraint
      = Except.ok CapMatchOutcome.noExclude := by
    simp only [providers_matching_capability_constraint, hreq,
      ne_eq, not_true_eq_false, if_false, ite_false, reduceIte]
    simp only [pmccAnyStage, hany, ne_eq, not_true_eq_false, reduceIte]
    simp only [pmccForbidStage, hforbid, hquery, hreq, hany, ne_eq,
      not_false_eq_true, reduceIte, and_self, if_true]
    rfl
  refine ⟨h1, ?_⟩
  simp only [process_capability_constraints, hgroup]
  simp only [pccLoop, hforbid, h1, ne_eq, and_false, false_and,
    reduceIte, and_self]
  rfl

/-- Witness for C6 at a concrete state where nobody carries `cforb`. -/
theorem C6_null_forbid_is_positive_witness :
    providers_matching_capability_constraint dbTwoClean ⟨[], ["cforb"], []⟩
      = Except.ok CapMatchOutcome.noExclude
    ∧ process_capability_constraints dbTwoClean
        (MatchContext.init reqForbid ⟨[⟨"r", 1, 1, none⟩],
          [⟨[], ["cforb"], []⟩]⟩)
      = Except.ok (true, MatchContext.init reqForbid ⟨[⟨"r", 1, 1, none⟩],
          [⟨[], ["cforb"], []⟩]⟩) :=
  C6_null_forbid_is_positive dbTwoClean
    (MatchContext.init reqForbid ⟨[⟨"r", 1, 1, none⟩], [⟨[], ["cforb"], []⟩]⟩)
    ⟨[], ["cforb"], []⟩ rfl rfl (by simp)
    (by with_unfolding_all rfl) rfl

/-! ## C7 -/

/-- **C7 counterexample.** A fatal group (its `require` set matches no
provider) does not make `process_claim_request` return an empty claim
list: at this concrete input the function returns a one-element list
holding a `Claim` whose `allocation_items` list is empty. -/
theorem C7_counterexample_not_an_empty_list :
    process_claim_request dbTwoClean reqRequire
      = Except.ok [⟨10, 20, [], []⟩]
    ∧ process_claim_request dbTwoClean reqRequire
      ≠ Except.ok ([] : List Claim) := by
  refine ⟨by with_unfolding_all rfl, ?_⟩
  intro h
  rw [show process_claim_request dbTwoClean reqRequire
    = Except.ok [⟨10, 20, [], []⟩] from by with_unfolding_all rfl] at h
  simp at h

/-- Helper for C7: mapM over groups that all process to no items. -/
theorem mapM_group_ok_nil (db : Db) (cr : ClaimRequest) (l : List ClaimRequestGroup)
    (h : ∀ g ∈ l, process_claim_request_group db cr g = Except.ok []) :
    l.mapM (fun g => process_claim_request_group db cr g)
      = Except.ok (l.map (fun _ => ([] : List AllocationItem))) := by
  induction l with
  | nil => rfl
  | cons g gs ih =>
    simp only [List.mapM_cons, h g (by simp), List.map_cons]
    rw [ih (fun y hy => h y (by simp [hy]))]
    rfl

/-- Helper for C7: flattening all-empty per-group item lists. -/
theorem flatten_map_nil (l : List ClaimRequestGroup) :
    (l.map (fun _ => ([] : List AllocationItem))).flatten = [] := by
  induction l with
  | nil => rfl
  | cons x xs ih => simp [ih]

/-- Helper for C7: the enumerated flat map over all-empty groups is
empty. -/
theorem enumFrom_flatMap_nil (n : Nat) (l : List ClaimRequestGroup) :
    ((List.enumFrom n (l.map (fun _ => ([] : List AllocationItem)))).flatMap
      (fun gi => gi.2.map (fun _ => gi.1))) = [] := by
  induction l generalizing n with
  | nil => rfl
  | cons x xs ih => simpa [List.enumFrom] using ih (n + 1)

/-- **C7 amended.** When every request group is infeasible (the matcher
produces zero allocation items for each group), `process_claim_request`
raises no exception but returns a one-element list — not an empty list —
holding a single `Claim` with the request's window, an empty
`allocation_items` list and an empty item-to-group map. -/
theorem C7_infeasibility_yields_singleton_claim (db : Db)
    (cr : ClaimRequest)
    (h : ∀ g ∈ cr.request_groups,
      process_claim_request_group db cr g = Except.ok []) :
    process_claim_request db cr
      = Except.ok [⟨cr.acquire_time, cr.release_time, [], []⟩] := by
  have hb : buildItemGroupMap (cr.request_groups.map
      (fun _ => ([] : List AllocationItem))) = [] := by
    simp only [buildItemGroupMap]
    show ((List.enumFrom 0 (cr.request_groups.map
      (fun _ => ([] : List AllocationItem)))).flatMap
        (fun gi => gi.2.map (fun _ => gi.1))).enum = []
    rw [enumFrom_flatMap_nil]
    rfl
  simp only [process_claim_request, mapM_group_ok_nil db cr _ h]
  show Except.ok [(⟨cr.acquire_time, cr.release_time,
      (cr.request_groups.map (fun _ => ([] : List AllocationItem))).flatten,
      buildItemGroupMap (cr.request_groups.map
        (fun _ => ([] : List AllocationItem)))⟩ : Claim)]
    = Except.ok [⟨cr.acquire_time, cr.release_time, [], []⟩]
  rw [flatten_map_nil, hb]

/-- Witness for C7 at the concrete infeasible request. -/
theorem C7_infeasibility_yields_singleton_claim_witness :
    process_claim_request dbTwoClean reqRequire
      = Except.ok [⟨10, 20, [], []⟩] :=
  C7_infeasibility_yields_singleton_claim dbTwoClean reqRequire
    (by
      intro g hg
      simp only [reqRequire] at hg
      simp only [List.mem_singleton] at hg
      subst hg
      with_unfolding_all rfl)

/-! ## C8 -/

/-- **C8 counterexample.** The catalog lookups do not fail with a typed
`UnknownCode` error: `resource_type_id_from_code` on an absent code
raises the builtin `KeyError` (there is no `UnknownCode` class anywhere
in the source), and `KeyError` is distinct from the spec-modelled
`unknownCode` value. -/
theorem C8_counterexample_keyError_not_unknownCode :
    resource_type_id_from_code [("a", 1)] "b"
      = Except.error (PyExc.keyError "b")
    ∧ PyExc.keyError "b" ≠ PyExc.unknownCode "b" := by
  exact ⟨rfl, by intro h; cases h⟩

/-- **C8 amended.** Each of the four catalog lookup functions fails — with
the builtin `KeyError`, not a typed `UnknownCode` — when the supplied
code is absent from its catalog (`claim._cap_id_from_code`, also cited
by the claim, raises `ValueError` instead), and otherwise returns the
catalog's integer id for that code. -/
theorem C8_lookups_fail_with_builtin_errors (cat : Catalog)
    (code : String) :
    (catalogLookup cat code = none →
      provider_type_id_from_code cat code
          = Except.error (PyExc.keyError code)
        ∧ consumer_type_id_from_code cat code
          = Except.error (PyExc.keyError code)
        ∧ resource_type_id_from_code cat code
          = Except.error (PyExc.keyError code)
        ∧ capability_id_from_code cat code
          = Except.error (PyExc.keyError code)
        ∧ cap_id_from_code cat code = Except.error (PyExc.valueError
            ("Could not find ID for capability " ++ code)))
    ∧ (∀ i, catalogLookup cat code = some i →
      provider_type_id_from_code cat code = Except.ok i
        ∧ consumer_type_id_from_code cat code = Except.ok i
        ∧ resource_type_id_from_code cat code = Except.ok i
        ∧ capability_id_from_code cat code = Except.ok i
        ∧ cap_id_from_code cat code = Except.ok i) := by
  constructor
  · intro h
    simp [provider_type_id_from_code, consumer_type_id_from_code,
      resource_type_id_from_code, capability_id_from_code,
      cap_id_from_code, h]
  · intro i h
    simp [provider_type_id_from_code, consumer_type_id_from_code,
      resource_type_id_from_code, capability_id_from_code,
      cap_id_from_code, h]

/-- Witness for C8 amended at a concrete catalog. -/
theorem C8_lookups_fail_with_builtin_errors_witness :
    provider_type_id_from_code [("a", 1)] "a" = Except.ok 1
    ∧ consumer_type_id_from_code [("a", 1)] "a" = Except.ok 1
    ∧ resource_type_id_from_code [("a", 1)] "a" = Except.ok 1
    ∧ capability_id_from_code [("a", 1)] "a" = Except.ok 1
    ∧ cap_id_from_code [("a", 1)] "a" = Except.ok 1 :=
  (C8_lookups_fail_with_builtin_errors [("a", 1)] "a").2 1 rfl

/-! ## C9 -/

/-- Bind of a successful `Except` computation, for rewriting the
matcher's do-blocks. -/
theorem exceptBind_ok {e a b : Type} (x : a) (f : a → Except e b) :
    (Except.ok x >>= f) = f x := rfl

/-- **C9.** When both the capability pass and the resource pass succeed
and the surviving `matches` dict is non-empty, the matcher picks the
first provider in iteration order of `matches` and emits exactly one
AllocationItem per resource constraint of the group, every item bound to
that same provider with `used = max_amount`. -/
theorem C9_first_provider_selected (db : Db) (cr : ClaimRequest)
    (group : ClaimRequestGroup) (mctx1 mctx2 : MatchContext)
    (k : Nat) (v : String) (rest : PyDict)
    (hcap : process_capability_constraints db (MatchContext.init cr group)
      = Except.ok (true, mctx1))
    (hres : process_resource_constraints db mctx1
      = Except.ok (true, mctx2))
    (hmatches : mctx2.matches_ = (k, v) :: rest) :
    process_claim_request_group db cr group = Except.ok
      (mctx2.request_group.resource_constraints.map (fun rc =>
        { provider := ⟨k, v, 0⟩
          resource_type := rc.resource_type
          used := rc.max_amount })) := by
  simp only [process_claim_request_group, hcap, exceptBind_ok]
  simp only [hres, exceptBind_ok]
  simp only [hmatches]
  rfl

/-- The request used by the C9 witness: one group, no capability
constraints, one resource constraint on `r`. -/
def reqPlain : ClaimRequest :=
  { consumer := "c"
    request_groups := [⟨[⟨"r", 1, 1, none⟩], []⟩]
    acquire_time := 10
    release_time := 20 }

/-- The match context reached after the C9 witness's resource pass. -/
def mctxPlain : MatchContext :=
  { claim_request := reqPlain
    started_filtering := true
    request_group := ⟨[⟨"r", 1, 1, none⟩], []⟩
    matches_ := [(1, "u1"), (2, "u2")]
    exclude := [] }

/-- Witness for C9: with two matching providers, the matcher allocates on
the first (`u1`) only, one item for the single resource constraint. -/
theorem C9_first_provider_selected_witness :
    process_claim_request_group dbTwo reqPlain ⟨[⟨"r", 1, 1, none⟩], []⟩
      = Except.ok [⟨⟨1, "u1", 0⟩, "r", 1⟩] :=
  C9_first_provider_selected dbTwo reqPlain ⟨[⟨"r", 1, 1, none⟩], []⟩
    (MatchContext.init reqPlain ⟨[⟨"r", 1, 1, none⟩], []⟩) mctxPlain
    1 "u1" [(2, "u2")] rfl (by with_unfolding_all rfl) rfl

/-! ## C4: support lemmas on the Python-dict model -/

/-- Looking up a key is `none` exactly when no entry carries it. -/
theorem assocLookup_eq_none {κ α : Type} [DecidableEq κ]
    (d : List (κ × α)) (k : κ) :
    assocLookup d k = none ↔ ¬ (d.any (fun kv => kv.1 = k) = true) := by
  induction d with
  | nil => simp [assocLookup]
  | cons kv rest ih =>
    by_cases h : kv.1 = k <;> simp [assocLookup, h, ih]

/-- Lookup across an append. -/
theorem assocLookup_append {κ α : Type} [DecidableEq κ]
    (d e : List (κ × α)) (k : κ) :
    assocLookup (d ++ e) k
      = match assocLookup d k with
        | some v => some v
        | none => assocLookup e k := by
  induction d with
  | nil => simp [assocLookup]
  | cons kv rest ih =>
    by_cases h : kv.1 = k <;> simp [assocLookup, h, ih]

/-- Lookup after the in-place overwrite branch of `assocSet`. -/
theorem assocLookup_overwrite {κ α : Type} [DecidableEq κ]
    (d : List (κ × α)) (k k' : κ) (v : α) :
    assocLookup (d.map (fun kv => if kv.1 = k then (k, v) else kv)) k'
      = if k' = k then
          (if d.any (fun kv => kv.1 = k) then some v else none)
        else assocLookup d k' := by
  induction d with
  | nil => by_cases h : k' = k <;> simp [assocLookup, h]
  | cons kv rest ih =>
    by_cases hkv : kv.1 = k
    · by_cases hk : k' = k
      · subst hk
        simp [assocLookup, hkv, ih]
      · simp only [List.map_cons, hkv, if_true, reduceIte]
        rw [show assocLookup ((k, v) :: rest.map (fun kv =>
          if kv.1 = k then (k, v) else kv)) k'
            = if k = k' then some v
              else assocLookup (rest.map (fun kv =>
                if kv.1 = k then (k, v) else kv)) k' from rfl]
        have hne : ¬ (k = k') := fun h => hk h.symm
        simp [hne, ih, hk, assocLookup, hkv,
          show ¬ (kv.1 = k') from fun h => hk (by rw [← h, hkv])]
    · by_cases hk' : kv.1 = k'
      · have hk : ¬ (k' = k) := fun h => hkv (by rw [hk', h])
        simp [assocLookup, hkv, hk', hk, ih]
      · simp only [List.map_cons, hkv, reduceIte, assocLookup, hk', ih,
          if_false]
        have hd : decide (kv.1 = k) = false := by simp [hkv]
        by_cases hk : k' = k
        · simp [hk, hkv, assocLookup, hk', ih]
          rw [hd, Bool.false_or]
        · simp [hk, hkv, assocLookup, hk', ih]

/-- Lookup after a Python dict store `d[k] = v`. -/
theorem assocLookup_assocSet {κ α : Type} [DecidableEq κ]
    (d : List (κ × α)) (k k' : κ) (v : α) :
    assocLookup (assocSet d k v) k'
      = if k' = k then some v else assocLookup d k' := by
  by_cases hany : d.any (fun kv => kv.1 = k)
  · simp [assocSet, hany, assocLookup_overwrite]
  · simp only [assocSet, hany, Bool.false_eq_true, if_false, reduceIte]
    rw [assocLookup_append]
    by_cases hk : k' = k
    · subst hk
      rw [(assocLookup_eq_none d k').mpr hany]
      simp [assocLookup]
    · have hke : ¬ (k = k') := fun h => hk h.symm
      cases hl : assocLookup d k' <;> simp [assocLookup, hke, hk, hl]

/-- A Nodup list filtered to one value is that value alone (or empty). -/
theorem filter_eq_singleton_of_nodup (w : List Nat) (hw : w.Nodup)
    (c : Nat) (h : w.filter (fun x => x = c) ≠ []) :
    w.filter (fun x => x = c) = [c] := by
  cases hf : w.filter (fun x => x = c) with
  | nil => exact absurd hf h
  | cons x rest =>
    have hx : x = c := by
      have hm := List.mem_filter.mp (hf ▸ List.mem_cons_self x rest)
      simpa using hm.2
    have hnd : (w.filter (fun x => x = c)).Nodup := hw.filter _
    rw [hf] at hnd
    have hrest : rest = [] := by
      cases rest with
      | nil => rfl
      | cons y ys =>
        have hy : y = c := by
          have hmem : y ∈ w.filter (fun x => x = c) := by
            rw [hf]
            exact List.mem_cons_of_mem _ (List.mem_cons_self y ys)
          simpa using (List.mem_filter.mp hmem).2
        have hnx : x ∉ y :: ys := (List.nodup_cons.mp hnd).1
        exact absurd (by rw [hx, ← hy]; exact List.mem_cons_self y ys) hnx
    rw [hx, hrest]

/-- Flat-mapping a function that yields singletons is the identity. -/
theorem flatMap_of_singleton {α : Type} (l : List α) (f : α → List α)
    (h : ∀ a ∈ l, f a = [a]) : l.flatMap f = l := by
  induction l with
  | nil => rfl
  | cons x xs ih =>
    simp only [List.flatMap_cons, h x (by simp)]
    rw [ih (fun a ha => h a (by simp [ha]))]
    rfl

/-- The LEFT OUTER JOIN of allocation items to any Nodup window id list
keeps every allocation item exactly once: the window restriction of the
usage subqueries has no effect on the aggregated rows. -/
theorem usageJoinRows_eq (db : Db) (w : List Nat) (hw : w.Nodup) :
    usageJoinRows db w = db.allocation_items := by
  unfold usageJoinRows
  apply flatMap_of_singleton
  intro ai _
  by_cases h : w.filter (fun x => x = ai.allocation_id) = []
  · simp [h]
  · rw [filter_eq_singleton_of_nodup w hw ai.allocation_id h]
    simp [h]

/-- The window-independent usage the queries actually aggregate for a
(provider, resource type) pair: the sum of `used` over all its
allocation item rows. -/
def tableUsage (db : Db) (pid rt : Nat) : Int :=
  ((db.allocation_items.filter (fun ai =>
    ai.provider_id = pid && ai.resource_type_id = rt)).map
      (fun ai => ai.used)).sum

/-- Lookup in an association list built by pairing each key with a
computed value. -/
theorem assocLookup_keyMap {κ α : Type} [DecidableEq κ]
    (keys : List κ) (g : κ → α) (k : κ) :
    assocLookup (keys.map (fun x => (x, g x))) k
      = if k ∈ keys then some (g k) else none := by
  induction keys with
  | nil => simp [assocLookup]
  | cons x xs ih =>
    by_cases h : x = k
    · subst h
      simp [assocLookup]
    · have hne : ¬ (k = x) := fun hh => h hh.symm
      simp [assocLookup, h, ih, hne]

/-- The windowed allocation ids are distinct (GROUP BY id). -/
theorem allocs_in_window_nodup (db : Db) (a r : Int) :
    (allocs_in_window db a r).Nodup := by
  unfold allocs_in_window
  exact List.nodup_dedup _

/-- The coalesced value the Phase-1 usage subquery yields for a claimed
(provider, resource type) pair is exactly the table-wide usage sum: the
window plays no role (see `usageJoinRows_eq`). -/
theorem check_usages_lookup (db : Db) (a r : Int) (p_ids rt_ids : List Nat)
    (pid rt : Nat) (hp : pid ∈ p_ids) (hrt : rt ∈ rt_ids) :
    (assocLookup (check_usages_subquery db a r p_ids rt_ids)
      (pid, rt)).getD 0 = tableUsage db pid rt := by
  unfold check_usages_subquery
  rw [usageJoinRows_eq db _ (allocs_in_window_nodup db a r)]
  have hff : (db.allocation_items.filter (fun ai =>
      rt_ids.contains ai.resource_type_id
        && p_ids.contains ai.provider_id)).filter (fun ai =>
      ai.provider_id = pid && ai.resource_type_id = rt)
      = db.allocation_items.filter (fun ai =>
          ai.provider_id = pid && ai.resource_type_id = rt) := by
    rw [List.filter_filter]
    apply List.filter_congr
    intro ai _
    by_cases h1 : ai.provider_id = pid
    · by_cases h2 : ai.resource_type_id = rt
      · simp [h1, h2, hp, hrt]
      · simp [h2]
    · simp [h1]
  rw [assocLookup_keyMap]
  by_cases hmem : (pid, rt) ∈ ((db.allocation_items.filter (fun ai =>
      rt_ids.contains ai.resource_type_id
        && p_ids.contains ai.provider_id)).map (fun ai =>
          (ai.provider_id, ai.resource_type_id))).dedup
  · simp only [hmem, if_true, Option.getD_some]
    unfold tableUsage
    rw [← hff]
  · simp only [hmem, if_false, Option.getD_none]
    have hnil : db.allocation_items.filter (fun ai =>
        ai.provider_id = pid && ai.resource_type_id = rt) = [] := by
      rw [← hff]
      rw [List.filter_eq_nil_iff]
      intro ai hai hcontra
      apply hmem
      rw [List.mem_dedup]
      refine List.mem_map.mpr ⟨ai, hai, ?_⟩
      simp only [Bool.and_eq_true, decide_eq_true_eq] at hcontra
      rw [hcontra.1, hcontra.2]
    unfold tableUsage
    rw [hnil]
    rfl

/-- The usage the built `provider_usages` dict holds for a (provider id,
resource type id) pair. -/
def pusUsageAt (pus : List (Nat × ProviderUsages)) (pid rt : Nat) :
    Option Usage :=
  match assocLookup pus pid with
  | none => none
  | some pu => assocLookup pu.usages rt

/-- Splitting a successful `pusUsageAt` into its two dict lookups. -/
theorem pusUsageAt_eq_some (pus : List (Nat × ProviderUsages))
    (pid rt : Nat) (u : Usage) (h : pusUsageAt pus pid rt = some u) :
    ∃ pu, assocLookup pus pid = some pu
      ∧ assocLookup pu.usages rt = some u := by
  unfold pusUsageAt at h
  cases hl : assocLookup pus pid with
  | none => rw [hl] at h; cases h
  | some pu => rw [hl] at h; exact ⟨pu, rfl, h⟩

/-- `addCheckRec` for a different provider leaves the usage view for this
provider unchanged. -/
theorem pusUsageAt_addCheckRec_ne (acc : List (Nat × ProviderUsages))
    (rec : CheckRec) (pid rt : Nat) (h : ¬ pid = rec.provider_id) :
    pusUsageAt (addCheckRec acc rec) pid rt = pusUsageAt acc pid rt := by
  unfold pusUsageAt
  simp only [addCheckRec]
  rw [assocLookup_assocSet, if_neg h]

/-- `addCheckRec` stores the row's usage at its own (provider, resource
type) pair. -/
theorem pusUsageAt_addCheckRec_same (acc : List (Nat × ProviderUsages))
    (rec : CheckRec) :
    pusUsageAt (addCheckRec acc rec) rec.provider_id rec.resource_type_id
      = some (usageOfRec rec) := by
  cases hacc : assocLookup acc rec.provider_id with
  | none =>
    unfold pusUsageAt
    simp only [addCheckRec, hacc]
    rw [assocLookup_assocSet, if_pos rfl]
    show assocLookup (assocSet ([] : List (Nat × Usage))
      rec.resource_type_id (usageOfRec rec)) rec.resource_type_id
      = some (usageOfRec rec)
    rw [assocLookup_assocSet, if_pos rfl]
  | some pu =>
    unfold pusUsageAt
    simp only [addCheckRec, hacc]
    rw [assocLookup_assocSet, if_pos rfl]
    show assocLookup (assocSet pu.usages
      rec.resource_type_id (usageOfRec rec)) rec.resource_type_id
      = some (usageOfRec rec)
    rw [assocLookup_assocSet, if_pos rfl]

/-- `addCheckRec` for the same provider but a different resource type
leaves that resource type's usage view unchanged. -/
theorem pusUsageAt_addCheckRec_same_ne (acc : List (Nat × ProviderUsages))
    (rec : CheckRec) (rt : Nat) (h : ¬ rt = rec.resource_type_id) :
    pusUsageAt (addCheckRec acc rec) rec.provider_id rt
      = pusUsageAt acc rec.provider_id rt := by
  cases hacc : assocLookup acc rec.provider_id with
  | none =>
    unfold pusUsageAt
    simp only [addCheckRec, hacc]
    rw [assocLookup_assocSet, if_pos rfl]
    show assocLookup (assocSet ([] : List (Nat × Usage))
      rec.resource_type_id (usageOfRec rec)) rt = none
    rw [assocLookup_assocSet, if_neg h]
    rfl
  | some pu =>
    unfold pusUsageAt
    simp only [addCheckRec, hacc]
    rw [assocLookup_assocSet, if_pos rfl]
    show assocLookup (assocSet pu.usages
      rec.resource_type_id (usageOfRec rec)) rt = _
    rw [assocLookup_assocSet, if_neg h]

/-- The usage view after one `addCheckRec` step, in one equation. -/
theorem pusUsageAt_addCheckRec (acc : List (Nat × ProviderUsages))
    (rec : CheckRec) (pid rt : Nat) :
    pusUsageAt (addCheckRec acc rec) pid rt
      = if rec.provider_id = pid ∧ rec.resource_type_id = rt
        then some (usageOfRec rec) else pusUsageAt acc pid rt := by
  by_cases h1 : pid = rec.provider_id
  · subst h1
    by_cases h2 : rt = rec.resource_type_id
    · subst h2
      rw [pusUsageAt_addCheckRec_same, if_pos ⟨rfl, rfl⟩]
    · rw [pusUsageAt_addCheckRec_same_ne acc rec rt h2,
        if_neg (fun hc => h2 hc.2.symm)]
  · rw [pusUsageAt_addCheckRec_ne acc rec pid rt h1,
      if_neg (fun hc => h1 hc.1.symm)]

/-- Folding records none of which hits the pair leaves the view
unchanged. -/
theorem pusUsageAt_foldl_no_match (recs : List CheckRec)
    (acc : List (Nat × ProviderUsages)) (pid rt : Nat)
    (h : ∀ r ∈ recs, ¬(r.provider_id = pid ∧ r.resource_type_id = rt)) :
    pusUsageAt (recs.foldl addCheckRec acc) pid rt
      = pusUsageAt acc pid rt := by
  induction recs generalizing acc with
  | nil => rfl
  | cons r rest ih =>
    rw [List.foldl_cons, ih _ (fun x hx => h x (by simp [hx]))]
    rw [pusUsageAt_addCheckRec, if_neg (h r (by simp))]

/-- Folding records that agree on the pair's usage installs that usage. -/
theorem pusUsageAt_foldl_match (recs : List CheckRec)
    (acc : List (Nat × ProviderUsages)) (pid rt : Nat) (u : Usage)
    (hagree : ∀ r ∈ recs, r.provider_id = pid → r.resource_type_id = rt →
      usageOfRec r = u)
    (hex : ∃ r ∈ recs, r.provider_id = pid ∧ r.resource_type_id = rt) :
    pusUsageAt (recs.foldl addCheckRec acc) pid rt = some u := by
  induction recs generalizing acc with
  | nil => simp at hex
  | cons r rest ih =>
    rw [List.foldl_cons]
    by_cases hrest : ∃ x ∈ rest,
        x.provider_id = pid ∧ x.resource_type_id = rt
    · exact ih _ (fun x hx ha hb => hagree x (by simp [hx]) ha hb) hrest
    · have hr : r.provider_id = pid ∧ r.resource_type_id = rt := by
        rcases hex with ⟨x, hx, hxx⟩
        rcases List.mem_cons.mp hx with hh | hh
        · exact hh ▸ hxx
        · exact absurd ⟨x, hh, hxx⟩ hrest
      rw [pusUsageAt_foldl_no_match rest _ pid rt
        (fun x hx hxx => hrest ⟨x, hx, hxx⟩)]
      rw [pusUsageAt_addCheckRec, if_pos hr,
        hagree r (by simp) hr.1 hr.2]

/-- A successful dict lookup exhibits a member. -/
theorem assocLookup_mem {κ α : Type} [DecidableEq κ] (d : List (κ × α))
    (k : κ) (v : α) (h : assocLookup d k = some v) : (k, v) ∈ d := by
  induction d with
  | nil => cases h
  | cons kv rest ih =>
    by_cases hk : kv.1 = k
    · simp only [assocLookup, hk, if_pos, reduceIte, Option.some.injEq] at h
      have : kv = (k, v) := Prod.ext hk h
      rw [← this]
      exact List.mem_cons_self kv rest
    · simp only [assocLookup, hk, reduceIte] at h
      exact List.mem_cons_of_mem _ (ih h)

/-- The stored pair is a member of the store. -/
theorem self_mem_assocSet {κ α : Type} [DecidableEq κ]
    (d : List (κ × α)) (k : κ) (v : α) : (k, v) ∈ assocSet d k v := by
  unfold assocSet
  by_cases hany : d.any (fun kv => kv.1 = k)
  · simp only [hany, reduceIte]
    rcases List.any_eq_true.mp hany with ⟨x, hx, hxk⟩
    refine List.mem_map.mpr ⟨x, hx, ?_⟩
    simp only [decide_eq_true_eq] at hxk
    simp [hxk]
  · simp [hany]

/-- Entries with another key survive a store untouched. -/
theorem mem_assocSet_of_key_ne {κ α : Type} [DecidableEq κ]
    (d : List (κ × α)) (k : κ) (v : α) (kv : κ × α) (hm : kv ∈ d)
    (h : ¬ kv.1 = k) : kv ∈ assocSet d k v := by
  unfold assocSet
  by_cases hany : d.any (fun x => x.1 = k)
  · simp only [hany, reduceIte]
    refine List.mem_map.mpr ⟨kv, hm, ?_⟩
    simp [h]
  · simp [hany, hm]

/-- Members of a store come from the original dict or are the stored
pair. -/
theorem mem_assocSet_elim {κ α : Type} [DecidableEq κ]
    (d : List (κ × α)) (k : κ) (v : α) (kv : κ × α)
    (h : kv ∈ assocSet d k v) : kv ∈ d ∨ kv = (k, v) := by
  unfold assocSet at h
  by_cases hany : d.any (fun x => x.1 = k)
  · simp only [hany, reduceIte] at h
    rcases List.mem_map.mp h with ⟨x, hx, hxx⟩
    by_cases hxk : x.1 = k
    · right
      rw [← hxx]
      simp [hxk]
    · left
      rw [← hxx]
      simpa [hxk] using hx
  · simp only [hany, reduceIte] at h
    rcases List.mem_append.mp h with hh | hh
    · left; exact hh
    · right; simpa using hh

/-- A pair whose key always carries the same value in `rows` ends up in
the updated dict whenever it is present in the base dict or in `rows`. -/
theorem mem_dictUpdate {κ α : Type} [DecidableEq κ]
    (rows : List (κ × α)) (d : List (κ × α)) (k : κ) (v : α)
    (hin : (k, v) ∈ d ∨ (k, v) ∈ rows)
    (hval : ∀ kv ∈ rows, kv.1 = k → kv.2 = v) :
    (k, v) ∈ dictUpdate d rows := by
  induction rows generalizing d with
  | nil => simpa [dictUpdate] using hin.resolve_right (by simp)
  | cons kv rest ih =>
    rw [show dictUpdate d (kv :: rest)
      = dictUpdate (assocSet d kv.1 kv.2) rest from rfl]
    apply ih
    · rcases hin with hd | hr
      · by_cases hk : kv.1 = k
        · left
          have hv : kv.2 = v := hval kv (by simp) hk
          rw [hk, hv]
          exact self_mem_assocSet d k v
        · left
          exact mem_assocSet_of_key_ne d kv.1 kv.2 (k, v) hd
            (fun hh => hk (by rw [← hh]))
      · rcases List.mem_cons.mp hr with hh | hh
        · left
          rw [hh]
          have h1 : kv.1 = k := by rw [← hh]
          have h2 : kv.2 = v := by rw [← hh]
          rw [show assocSet d kv.1 kv.2 = assocSet d k v from by
            rw [h1, h2]]
          rw [← hh] at h1 h2 ⊢
          exact self_mem_assocSet d k v
        · right; exact hh
    · exact fun x hx => hval x (by simp [hx])

/-- The provider object stored for a key by the `provider_usages` fold is
the one carried by the records for that key. -/
theorem pus_provider_foldl (recs : List CheckRec)
    (acc : List (Nat × ProviderUsages)) (pid : Nat) (u : String) (g : Int)
    (hagree : ∀ r ∈ recs, r.provider_id = pid →
      r.provider_uuid = u ∧ r.provider_generation = g)
    (hacc : ∀ pu, assocLookup acc pid = some pu →
      pu.provider = ⟨pid, u, g⟩) :
    ∀ pu, assocLookup (recs.foldl addCheckRec acc) pid = some pu →
      pu.provider = ⟨pid, u, g⟩ := by
  induction recs generalizing acc with
  | nil => exact hacc
  | cons r rest ih =>
    rw [List.foldl_cons]
    apply ih _ (fun x hx => hagree x (by simp [hx]))
    intro pu hpu
    by_cases h : pid = r.provider_id
    · cases hacc' : assocLookup acc r.provider_id with
      | none =>
        simp only [addCheckRec, hacc'] at hpu
        rw [assocLookup_assocSet, if_pos h] at hpu
        have heq := Option.some.inj hpu
        rw [← heq]
        obtain ⟨hu, hg⟩ := hagree r (by simp) h.symm
        show (⟨r.provider_id, r.provider_uuid, r.provider_generation⟩
          : Provider) = ⟨pid, u, g⟩
        rw [← h, hu, hg]
      | some pu₀ =>
        simp only [addCheckRec, hacc'] at hpu
        rw [assocLookup_assocSet, if_pos h] at hpu
        have heq := Option.some.inj hpu
        rw [← heq]
        show pu₀.provider = (⟨pid, u, g⟩ : Provider)
        exact hacc pu₀ (by rw [h]; exact hacc')
    · rw [show assocLookup (addCheckRec acc r) pid = assocLookup acc pid
        from by simp only [addCheckRec]
                rw [assocLookup_assocSet, if_neg h]] at hpu
      exact hacc pu hpu

/-- Every entry the `provider_usages` fold produces carries a provider
object permitted by the records (or already present in the
accumulator). -/
theorem foldl_addCheckRec_provider_inv (recs : List CheckRec)
    (acc : List (Nat × ProviderUsages)) (R : Nat → Provider → Prop)
    (hacc : ∀ kv ∈ acc, R kv.1 kv.2.provider)
    (hrecs : ∀ r ∈ recs, R r.provider_id
      ⟨r.provider_id, r.provider_uuid, r.provider_generation⟩) :
    ∀ kv ∈ recs.foldl addCheckRec acc, R kv.1 kv.2.provider := by
  induction recs generalizing acc with
  | nil => exact hacc
  | cons r rest ih =>
    rw [List.foldl_cons]
    refine ih _ ?_ (fun x hx => hrecs x (by simp [hx]))
    intro kv hkv
    cases hacc' : assocLookup acc r.provider_id with
    | none =>
      simp only [addCheckRec, hacc'] at hkv
      rcases mem_assocSet_elim _ _ _ _ hkv with hh | hh
      · exact hacc kv hh
      · rw [hh]
        exact hrecs r (by simp)
    | some pu₀ =>
      simp only [addCheckRec, hacc'] at hkv
      rcases mem_assocSet_elim _ _ _ _ hkv with hh | hh
      · exact hacc kv hh
      · rw [hh]
        show R r.provider_id pu₀.provider
        exact hacc (r.provider_id, pu₀) (assocLookup_mem _ _ _ hacc')

/-- The resolved resource type id of an item (meaningful when the catalog
resolves the code). -/
def rtD (db : Db) (it : AllocationItem) : Nat :=
  (catalogLookup db.resource_types it.resource_type).getD 0

/-- Under full resolution, the item-wise rt lookup of
`_check_provider_capacity` succeeds with the resolved ids. -/
theorem mapM_rt_ids (db : Db) (items : List AllocationItem)
    (hres : ∀ it ∈ items,
      (catalogLookup db.resource_types it.resource_type).isSome) :
    items.mapM (fun it => rt_id_from_code db.resource_types
      it.resource_type) = Except.ok (items.map (rtD db)) := by
  induction items with
  | nil => rfl
  | cons it rest ih =>
    have hs := hres it (by simp)
    obtain ⟨rt, hrt⟩ := Option.isSome_iff_exists.mp hs
    rw [List.mapM_cons]
    rw [show rt_id_from_code db.resource_types it.resource_type
      = Except.ok rt from by unfold rt_id_from_code; rw [hrt]]
    rw [exceptBind_ok, ih (fun x hx => hres x (by simp [hx])),
      exceptBind_ok]
    have hr : rtD db it = rt := by simp [rtD, hrt]
    rw [List.map_cons, hr]
    rfl

/-- The claim's provider id set (`set(...)` in the source). -/
def claimPids (claim : Claim) : List Nat :=
  (claim.allocation_items.map (fun it => it.provider.id)).dedup

/-- The claim's resolved resource type id set. -/
def claimRtIds (db : Db) (claim : Claim) : List Nat :=
  (claim.allocation_items.map (rtD db)).dedup

/-- The `provider_usages` dict of `_check_provider_capacity`. -/
def claimPus (db : Db) (claim : Claim) : List (Nat × ProviderUsages) :=
  (check_recs db claim.acquire_time claim.release_time (claimPids claim)
    (claimRtIds db claim)).foldl addCheckRec []

/-- With all codes resolving, Phase-1 re-validation is the two item loops
over `claimPus` followed by the generation map. -/
theorem check_provider_capacity_eq (db : Db) (claim : Claim)
    (hres : ∀ it ∈ claim.allocation_items,
      (catalogLookup db.resource_types it.resource_type).isSome) :
    check_provider_capacity db claim = (do
      checkMissingLoop db (claimPus db claim) claim.allocation_items
      checkUnitsLoop db (claimPus db claim) claim.allocation_items
      pure (dictOfRows ((claimPus db claim).map
        (fun kv => (kv.2.provider.uuid, kv.2.provider))))) := by
  unfold check_provider_capacity
  rw [mapM_rt_ids db _ hres]
  rfl

/-- Sequencing two checks and a pure result in `Except`. -/
theorem except_seq_cases {e b : Type} (m1 m2 : Except e Unit) (x : b) :
    (do m1; m2; pure x : Except e b)
      = (match m1 with
        | Except.error a => Except.error a
        | Except.ok _ => match m2 with
          | Except.error a => Except.error a
          | Except.ok _ => Except.ok x) := by
  cases m1 <;> cases m2 <;> rfl

/-- Membership in the Phase-1 re-validation rows. -/
theorem mem_check_recs (db : Db) (a b : Int) (p_ids rt_ids : List Nat)
    (r : CheckRec) :
    r ∈ check_recs db a b p_ids rt_ids
      ↔ ∃ p ∈ db.providers, ∃ i ∈ db.inventories,
          i.provider_id = p.id ∧ i.resource_type_id ∈ rt_ids
          ∧ p.id ∈ p_ids
          ∧ r = mkCheckRec (check_usages_subquery db a b p_ids rt_ids)
              p i := by
  unfold check_recs
  simp only [List.mem_flatMap, List.mem_map, List.mem_filter,
    Bool.and_eq_true, decide_eq_true_eq, List.elem_iff]
  constructor
  · rintro ⟨p, hp, i, ⟨⟨⟨hi, hc1a, hc1b⟩, hc2a, hc2b⟩, hr⟩⟩
    exact ⟨p, hp, i, hi, hc1a, by simpa using hc1b, by simpa using hc2b,
      hr.symm⟩
  · rintro ⟨p, hp, i, hi, h1, h2, h3, hr⟩
    exact ⟨p, hp, i, ⟨⟨⟨hi, h1, by simpa using h2⟩, by simpa using h2,
      by simpa using h3⟩, hr.symm⟩⟩

/-- When both the provider row and the inventory row for an item exist,
`provider_usages` holds exactly the re-read inventory numbers with the
table-wide usage sum. -/
theorem pusUsageAt_claim_some (db : Db) (claim : Claim)
    (it : AllocationItem) (hit : it ∈ claim.allocation_items)
    (hpid : (db.providers.map (fun p => p.id)).Nodup)
    (hinv : (db.inventories.map (fun i =>
      (i.provider_id, i.resource_type_id))).Nodup)
    (p : Provider) (hp : p ∈ db.providers) (hpeq : p.id = it.provider.id)
    (i : InventoryRow) (hi : i ∈ db.inventories)
    (hieq : i.provider_id = it.provider.id)
    (hirt : i.resource_type_id = rtD db it) :
    pusUsageAt (claimPus db claim) it.provider.id (rtD db it)
      = some ⟨i.total, i.reserved, i.min_unit, i.max_unit, i.step_size,
          i.allocation_ratio,
          tableUsage db it.provider.id (rtD db it)⟩ := by
  have hpmem : it.provider.id ∈ claimPids claim := by
    unfold claimPids
    rw [List.mem_dedup]
    exact List.mem_map.mpr ⟨it, hit, rfl⟩
  have hrtmem : rtD db it ∈ claimRtIds db claim := by
    unfold claimRtIds
    rw [List.mem_dedup]
    exact List.mem_map.mpr ⟨it, hit, rfl⟩
  have husage : (assocLookup (check_usages_subquery db claim.acquire_time
      claim.release_time (claimPids claim) (claimRtIds db claim))
      (it.provider.id, rtD db it)).getD 0
      = tableUsage db it.provider.id (rtD db it) :=
    check_usages_lookup db claim.acquire_time claim.release_time
      (claimPids claim) (claimRtIds db claim) it.provider.id (rtD db it)
      hpmem hrtmem
  unfold claimPus
  apply pusUsageAt_foldl_match
  · intro r hr hr1 hr2
    rcases (mem_check_recs db claim.acquire_time claim.release_time
        (claimPids claim) (claimRtIds db claim) r).mp hr with
      ⟨p', hp', i', hi', h1, h2, h3, hreq⟩
    have hpid' : p'.id = p.id := by
      have : r.provider_id = p'.id := by rw [hreq]; rfl
      rw [this] at hr1
      rw [hr1, hpeq]
    have hpp : p' = p := List.inj_on_of_nodup_map hpid hp' hp hpid'
    have hrt' : i'.resource_type_id = rtD db it := by
      have : r.resource_type_id = i'.resource_type_id := by rw [hreq]; rfl
      rw [this] at hr2
      exact hr2
    have hpair : (fun i => (i.provider_id, i.resource_type_id)) i'
        = (fun i => (i.provider_id, i.resource_type_id)) i := by
      show (i'.provider_id, i'.resource_type_id)
        = (i.provider_id, i.resource_type_id)
      rw [h1, hpp, hpeq, hieq, hrt', hirt]
    have hii : i' = i := List.inj_on_of_nodup_map hinv hi' hi hpair
    rw [hreq, hpp, hii]
    show Usage.mk i.total i.reserved i.min_unit i.max_unit i.step_size
      i.allocation_ratio ((assocLookup (check_usages_subquery db
        claim.acquire_time claim.release_time (claimPids claim)
        (claimRtIds db claim)) (p.id, i.resource_type_id)).getD 0) = _
    rw [hpeq, hirt, husage]
  · refine ⟨mkCheckRec (check_usages_subquery db claim.acquire_time
      claim.release_time (claimPids claim) (claimRtIds db claim)) p i,
      ?_, ?_, ?_⟩
    · exact (mem_check_recs db claim.acquire_time claim.release_time
        (claimPids claim) (claimRtIds db claim) _).mpr
        ⟨p, hp, i, hi, by rw [hieq, hpeq], by rw [hirt]; exact hrtmem,
          by rw [hpeq]; exact hpmem, rfl⟩
    · show p.id = it.provider.id
      exact hpeq
    · show i.resource_type_id = rtD db it
      exact hirt

/-- When the provider row or the inventory row is missing, the usage view
for the item's pair is empty. -/
theorem pusUsageAt_claim_none (db : Db) (claim : Claim)
    (it : AllocationItem)
    (hnone : (¬ ∃ p ∈ db.providers, p.id = it.provider.id)
      ∨ ¬ ∃ i ∈ db.inventories, i.provider_id = it.provider.id
          ∧ i.resource_type_id = rtD db it) :
    pusUsageAt (claimPus db claim) it.provider.id (rtD db it) = none := by
  unfold claimPus
  rw [pusUsageAt_foldl_no_match]
  · rfl
  · rintro r hr ⟨hr1, hr2⟩
    rcases (mem_check_recs db claim.acquire_time claim.release_time
        (claimPids claim) (claimRtIds db claim) r).mp hr with
      ⟨p, hp, i, hi, h1, h2, h3, hreq⟩
    have hpr : r.provider_id = p.id := by rw [hreq]; rfl
    have hir : r.resource_type_id = i.resource_type_id := by
      rw [hreq]; rfl
    rcases hnone with h | h
    · exact h ⟨p, hp, by rw [← hpr, hr1]⟩
    · refine h ⟨i, hi, ?_, ?_⟩
      · rw [h1, ← hpr, hr1]
      · rw [← hir, hr2]

/-- An item passing the four unit/capacity checks of the second
Phase-1 loop against a usage record. -/
def itemPass (it : AllocationItem) (u : Usage) : Prop :=
  ¬(it.used < u.min_unit) ∧ ¬(it.used > u.max_unit)
  ∧ it.used % u.step_size = 0
  ∧ ¬(((u.total : ℚ) - (u.reserved : ℚ)) * u.allocation_ratio
      < (u.total_used : ℚ) + (it.used : ℚ))

/-- The error shapes the unit/capacity loop can raise. -/
def unitErrForm : PyExc → Prop
  | PyExc.minUnitViolation _ _ _ _ => True
  | PyExc.maxUnitViolation _ _ _ _ => True
  | PyExc.stepSizeViolation _ _ _ _ => True
  | PyExc.capacityExceeded _ _ _ _ _ _ _ => True
  | _ => False

/-- The first Phase-1 loop either passes every item whose pair is in the
usage view, or raises `MissingInventory` because some item's pair is
not. -/
theorem checkMissingLoop_cases (db : Db)
    (pus : List (Nat × ProviderUsages)) (items : List AllocationItem)
    (hres : ∀ it ∈ items,
      (catalogLookup db.resource_types it.resource_type).isSome) :
    (checkMissingLoop db pus items = Except.ok ()
      ∧ ∀ it ∈ items, (pusUsageAt pus it.provider.id (rtD db it)).isSome)
    ∨ ((∃ u r, checkMissingLoop db pus items
          = Except.error (PyExc.missingInventory u r))
      ∧ ¬ ∀ it ∈ items,
          (pusUsageAt pus it.provider.id (rtD db it)).isSome) := by
  induction items with
  | nil =>
    left
    exact ⟨rfl, by simp⟩
  | cons it rest ih =>
    obtain ⟨rt, hrt⟩ := Option.isSome_iff_exists.mp (hres it (by simp))
    have hrd : rtD db it = rt := by simp [rtD, hrt]
    cases hl : assocLookup pus it.provider.id with
    | none =>
      right
      constructor
      · refine ⟨it.provider.uuid, it.resource_type, ?_⟩
        simp only [checkMissingLoop, hl]
      · intro hall
        have := hall it (by simp)
        unfold pusUsageAt at this
        rw [hl] at this
        simp at this
    | some pu =>
      have hstep : checkMissingLoop db pus (it :: rest)
          = (match assocLookup pu.usages rt with
            | none => Except.error (PyExc.missingInventory it.provider.uuid
                it.resource_type)
            | some _ => checkMissingLoop db pus rest) := by
        simp only [checkMissingLoop, hl]
        rw [show rt_id_from_code db.resource_types it.resource_type
          = Except.ok rt from by unfold rt_id_from_code; rw [hrt]]
        rfl
      cases hul : assocLookup pu.usages rt with
      | none =>
        right
        constructor
        · refine ⟨it.provider.uuid, it.resource_type, ?_⟩
          rw [hstep, hul]
        · intro hall
          have hthis := hall it (by simp)
          have hnone : pusUsageAt pus it.provider.id (rtD db it)
              = none := by
            unfold pusUsageAt
            rw [hl, hrd]
            exact hul
          rw [hnone] at hthis
          simp at hthis
      | some u =>
        rcases ih (fun x hx => hres x (by simp [hx])) with
          ⟨hok, hall⟩ | ⟨⟨eu, er, herr⟩, hnall⟩
        · left
          constructor
          · rw [hstep, hul, hok]
          · intro x hx
            rcases List.mem_cons.mp hx with hh | hh
            · rw [hh]
              have hsome : pusUsageAt pus it.provider.id (rtD db it)
                  = some u := by
                unfold pusUsageAt
                rw [hl, hrd]
                exact hul
              rw [hsome]
              rfl
            · exact hall x hh
        · right
          constructor
          · exact ⟨eu, er, by rw [hstep, hul]; exact herr⟩
          · intro hall
            exact hnall (fun x hx => hall x (by simp [hx]))

/-- The unit/capacity loop unfolded one step once the provider lookup is
pinned. -/
theorem checkUnitsLoop_cons_eq (db : Db)
    (pus : List (Nat × ProviderUsages)) (it : AllocationItem)
    (rest : List AllocationItem) (rt : Nat) (pu : ProviderUsages)
    (hrt : catalogLookup db.resource_types it.resource_type = some rt)
    (hpu : assocLookup pus it.provider.id = some pu) :
    checkUnitsLoop db pus (it :: rest)
      = (match assocLookup pu.usages rt with
        | none => Except.error (PyExc.keyError (toString rt))
        | some usage =>
          if it.used < usage.min_unit then
            Except.error (PyExc.minUnitViolation it.provider.uuid
              it.resource_type usage.min_unit it.used)
          else if it.used > usage.max_unit then
            Except.error (PyExc.maxUnitViolation it.provider.uuid
              it.resource_type usage.max_unit it.used)
          else if it.used % usage.step_size ≠ 0 then
            Except.error (PyExc.stepSizeViolation it.provider.uuid
              it.resource_type usage.step_size it.used)
          else if ((usage.total : ℚ) - (usage.reserved : ℚ))
              * usage.allocation_ratio
              < (usage.total_used : ℚ) + (it.used : ℚ) then
            Except.error (PyExc.capacityExceeded it.provider.uuid
              it.resource_type it.used usage.total usage.total_used
              usage.reserved usage.allocation_ratio)
          else checkUnitsLoop db pus rest) := by
  simp only [checkUnitsLoop]
  rw [show rt_id_from_code db.resource_types it.resource_type
    = Except.ok rt from by unfold rt_id_from_code; rw [hrt],
    exceptBind_ok, hpu]

/-- The second Phase-1 loop either passes every item or raises the typed
unit/capacity failure of the first violating item. -/
theorem checkUnitsLoop_cases (db : Db)
    (pus : List (Nat × ProviderUsages)) (items : List AllocationItem)
    (hres : ∀ it ∈ items,
      (catalogLookup db.resource_types it.resource_type).isSome)
    (hpres : ∀ it ∈ items,
      (pusUsageAt pus it.provider.id (rtD db it)).isSome) :
    (checkUnitsLoop db pus items = Except.ok ()
      ∧ ∀ it ∈ items, ∀ u,
          pusUsageAt pus it.provider.id (rtD db it) = some u →
            itemPass it u)
    ∨ ((∃ e, checkUnitsLoop db pus items = Except.error e ∧ unitErrForm e)
      ∧ ¬ ∀ it ∈ items, ∀ u,
          pusUsageAt pus it.provider.id (rtD db it) = some u →
            itemPass it u) := by
  induction items with
  | nil =>
    left
    exact ⟨rfl, by simp⟩
  | cons it rest ih =>
    obtain ⟨rt, hrt⟩ := Option.isSome_iff_exists.mp (hres it (by simp))
    have hrd : rtD db it = rt := by simp [rtD, hrt]
    obtain ⟨u, hu⟩ := Option.isSome_iff_exists.mp (hpres it (by simp))
    obtain ⟨pu, hpu, hul⟩ := pusUsageAt_eq_some pus it.provider.id
      (rtD db it) u hu
    rw [hrd] at hul
    have hstep : checkUnitsLoop db pus (it :: rest)
        = (if it.used < u.min_unit then
            Except.error (PyExc.minUnitViolation it.provider.uuid
              it.resource_type u.min_unit it.used)
          else if it.used > u.max_unit then
            Except.error (PyExc.maxUnitViolation it.provider.uuid
              it.resource_type u.max_unit it.used)
          else if it.used % u.step_size ≠ 0 then
            Except.error (PyExc.stepSizeViolation it.provider.uuid
              it.resource_type u.step_size it.used)
          else if ((u.total : ℚ) - (u.reserved : ℚ)) * u.allocation_ratio
              < (u.total_used : ℚ) + (it.used : ℚ) then
            Except.error (PyExc.capacityExceeded it.provider.uuid
              it.resource_type it.used u.total u.total_used u.reserved
              u.allocation_ratio)
          else checkUnitsLoop db pus rest) := by
      rw [checkUnitsLoop_cons_eq db pus it rest rt pu hrt hpu, hul]
    have hufun : ∀ u', pusUsageAt pus it.provider.id (rtD db it) = some u'
        → u' = u := by
      intro u' hu'
      rw [hu] at hu'
      exact (Option.some.inj hu').symm
    by_cases c1 : it.used < u.min_unit
    · right
      refine ⟨⟨PyExc.minUnitViolation it.provider.uuid it.resource_type
        u.min_unit it.used, by rw [hstep, if_pos c1], trivial⟩, ?_⟩
      intro hall
      exact absurd c1 (hall it (by simp) u hu).1.elim
    · by_cases c2 : it.used > u.max_unit
      · right
        refine ⟨⟨PyExc.maxUnitViolation it.provider.uuid it.resource_type
          u.max_unit it.used,
          by rw [hstep, if_neg c1, if_pos c2], trivial⟩, ?_⟩
        intro hall
        exact absurd c2 ((hall it (by simp) u hu).2.1.elim)
      · by_cases c3 : it.used % u.step_size ≠ 0
        · right
          refine ⟨⟨PyExc.stepSizeViolation it.provider.uuid
            it.resource_type u.step_size it.used,
            by rw [hstep, if_neg c1, if_neg c2, if_pos c3],
            trivial⟩, ?_⟩
          intro hall
          exact absurd (hall it (by simp) u hu).2.2.1 c3
        · by_cases c4 : ((u.total : ℚ) - (u.reserved : ℚ))
              * u.allocation_ratio < (u.total_used : ℚ) + (it.used : ℚ)
          · right
            refine ⟨⟨PyExc.capacityExceeded it.provider.uuid
              it.resource_type it.used u.total u.total_used u.reserved
              u.allocation_ratio,
              by rw [hstep, if_neg c1, if_neg c2, if_neg c3,
                if_pos c4], trivial⟩, ?_⟩
            intro hall
            exact absurd c4 ((hall it (by simp) u hu).2.2.2.elim)
          · have htail : checkUnitsLoop db pus (it :: rest)
                = checkUnitsLoop db pus rest := by
              rw [hstep, if_neg c1, if_neg c2, if_neg c3, if_neg c4]
            rcases ih (fun x hx => hres x (by simp [hx]))
                (fun x hx => hpres x (by simp [hx])) with
              ⟨hok, hall⟩ | ⟨⟨e, herr, hform⟩, hnall⟩
            · left
              constructor
              · rw [htail, hok]
              · intro x hx u' hu'
                rcases List.mem_cons.mp hx with hh | hh
                · subst hh
                  rw [hufun u' hu']
                  exact ⟨c1, c2, not_not.mp c3, c4⟩
                · exact hall x hh u' hu'
            · right
              refine ⟨⟨e, by rw [htail]; exact herr, hform⟩, ?_⟩
              intro hall
              exact hnall (fun x hx => hall x (by simp [hx]))

/-- Whether the re-read state joins a provider row and an inventory row
for an item's (provider, resolved resource type) pair. -/
def itemHasInventory (db : Db) (it : AllocationItem) : Prop :=
  (∃ p ∈ db.providers, p.id = it.provider.id)
  ∧ ∃ i ∈ db.inventories, i.provider_id = it.provider.id
      ∧ i.resource_type_id = rtD db it

/-- The usage record Phase-1 re-reads for an item from its inventory row:
the row's unit fields plus the (window-independent) aggregated usage. -/
def itemUsageOf (db : Db) (it : AllocationItem) (i : InventoryRow) :
    Usage :=
  ⟨i.total, i.reserved, i.min_unit, i.max_unit, i.step_size,
    i.allocation_ratio, tableUsage db it.provider.id (rtD db it)⟩

/-- The usage view holds an item's re-read record iff its pair joins. -/
theorem pusUsageAt_claim_iff (db : Db) (claim : Claim)
    (it : AllocationItem) (hit : it ∈ claim.allocation_items)
    (hpid : (db.providers.map (fun p => p.id)).Nodup)
    (hinv : (db.inventories.map (fun i =>
      (i.provider_id, i.resource_type_id))).Nodup) :
    (itemHasInventory db it →
      ∃ i ∈ db.inventories, i.provider_id = it.provider.id
        ∧ i.resource_type_id = rtD db it
        ∧ pusUsageAt (claimPus db claim) it.provider.id (rtD db it)
          = some (itemUsageOf db it i))
    ∧ (¬ itemHasInventory db it →
      pusUsageAt (claimPus db claim) it.provider.id (rtD db it) = none)
    ∧ ((pusUsageAt (claimPus db claim) it.provider.id
        (rtD db it)).isSome ↔ itemHasInventory db it) := by
  have hpos : itemHasInventory db it →
      ∃ i ∈ db.inventories, i.provider_id = it.provider.id
        ∧ i.resource_type_id = rtD db it
        ∧ pusUsageAt (claimPus db claim) it.provider.id (rtD db it)
          = some (itemUsageOf db it i) := by
    rintro ⟨⟨p, hp, hpeq⟩, i, hi, hieq, hirt⟩
    exact ⟨i, hi, hieq, hirt, pusUsageAt_claim_some db claim it hit hpid
      hinv p hp hpeq i hi hieq hirt⟩
  have hneg : ¬ itemHasInventory db it →
      pusUsageAt (claimPus db claim) it.provider.id (rtD db it)
        = none := by
    intro h
    exact pusUsageAt_claim_none db claim it (not_and_or.mp h)
  refine ⟨hpos, hneg, ?_⟩
  constructor
  · intro hs
    by_contra h
    rw [hneg h] at hs
    simp at hs
  · intro h
    obtain ⟨i, _, _, _, hsome⟩ := hpos h
    rw [hsome]
    rfl

/-- Pushing an `if`-guarded error through the sequencing match. -/
theorem except_match_if {e b : Type} (c : Prop) [Decidable c] (E : e)
    (m : Except e Unit) (x : b) :
    (match (if c then Except.error E else m : Except e Unit) with
      | Except.error a => Except.error a
      | Except.ok _ => Except.ok x)
    = if c then Except.error E else
        (match m with
          | Except.error a => Except.error a
          | Except.ok _ => Except.ok x) := by
  by_cases h : c <;> simp [h]

/-- The four possible outcomes of the nested unit/capacity `if` chain. -/
theorem ifchain_cases {α : Type} (c1 c2 c3 c4 : Prop)
    [Decidable c1] [Decidable c2] [Decidable c3] [Decidable c4]
    (e1 e2 e3 e4 x : α)
    (h12 : e1 ≠ e2) (h13 : e1 ≠ e3) (h14 : e1 ≠ e4) (h1x : e1 ≠ x)
    (h23 : e2 ≠ e3) (h24 : e2 ≠ e4) (h2x : e2 ≠ x)
    (h34 : e3 ≠ e4) (h3x : e3 ≠ x) (h4x : e4 ≠ x) :
    (((if c1 then e1 else if c2 then e2 else if c3 then e3
        else if c4 then e4 else x) = e1) ↔ c1)
    ∧ (((if c1 then e1 else if c2 then e2 else if c3 then e3
        else if c4 then e4 else x) = e2) ↔ ¬c1 ∧ c2)
    ∧ (((if c1 then e1 else if c2 then e2 else if c3 then e3
        else if c4 then e4 else x) = e3) ↔ ¬c1 ∧ ¬c2 ∧ c3)
    ∧ (((if c1 then e1 else if c2 then e2 else if c3 then e3
        else if c4 then e4 else x) = e4) ↔ ¬c1 ∧ ¬c2 ∧ ¬c3 ∧ c4) := by
  by_cases d1 : c1 <;> by_cases d2 : c2 <;> by_cases d3 : c3 <;>
    by_cases d4 : c4 <;>
    simp [d1, d2, d3, d4, h12, h13, h14, h1x, h23, h24, h2x, h34, h3x,
      h4x, Ne.symm h12, Ne.symm h13, Ne.symm h14, Ne.symm h1x,
      Ne.symm h23, Ne.symm h24, Ne.symm h2x, Ne.symm h34, Ne.symm h3x,
      Ne.symm h4x]

/-- **C4.** Phase-1 re-validation, characterized item-wise (under a
resolving catalog and primary-key uniqueness of providers and
inventories): (a) `MissingInventory` is raised iff some item's
(provider, resource type) pair has no inventory row in the re-read state;
(b) no exception is raised iff every item joins and passes the min/max/
step/capacity checks against its re-read inventory and summed usage;
(c) on success the returned map records each touched provider's current
generation; (d) for a one-item claim the typed failure is, in source
order, `MinUnitViolation` iff used < min_unit, `MaxUnitViolation` iff
used > max_unit, `StepSizeViolation` iff used mod step_size ≠ 0, and
`CapacityExceeded` iff (total − reserved) × allocation_ratio <
total_used + used. -/
theorem C4_check_provider_capacity_spec (db : Db) (claim : Claim)
    (hres : ∀ it ∈ claim.allocation_items,
      (catalogLookup db.resource_types it.resource_type).isSome)
    (hpid : (db.providers.map (fun p => p.id)).Nodup)
    (hinv : (db.inventories.map (fun i =>
      (i.provider_id, i.resource_type_id))).Nodup)
    (huuid : (db.providers.map (fun p => p.uuid)).Nodup) :
    ((∃ u r, check_provider_capacity db claim
        = Except.error (PyExc.missingInventory u r))
      ↔ ∃ it ∈ claim.allocation_items, ¬ itemHasInventory db it)
    ∧ ((∃ m, check_provider_capacity db claim = Except.ok m)
      ↔ ∀ it ∈ claim.allocation_items, itemHasInventory db it
          ∧ ∃ i ∈ db.inventories, i.provider_id = it.provider.id
            ∧ i.resource_type_id = rtD db it
            ∧ itemPass it (itemUsageOf db it i))
    ∧ (∀ m, check_provider_capacity db claim = Except.ok m →
        ∀ it ∈ claim.allocation_items, ∀ prow ∈ db.providers,
          prow.id = it.provider.id →
          (prow.uuid, (⟨prow.id, prow.uuid, prow.generation⟩ : Provider))
            ∈ m)
    ∧ (∀ it, claim.allocation_items = [it] →
        ∀ i ∈ db.inventories, i.provider_id = it.provider.id →
        i.resource_type_id = rtD db it →
        (∃ p ∈ db.providers, p.id = it.provider.id) →
        ((check_provider_capacity db claim = Except.error
            (PyExc.minUnitViolation it.provider.uuid it.resource_type
              i.min_unit it.used)
          ↔ it.used < i.min_unit)
        ∧ (check_provider_capacity db claim = Except.error
            (PyExc.maxUnitViolation it.provider.uuid it.resource_type
              i.max_unit it.used)
          ↔ ¬(it.used < i.min_unit) ∧ it.used > i.max_unit)
        ∧ (check_provider_capacity db claim = Except.error
            (PyExc.stepSizeViolation it.provider.uuid it.resource_type
              i.step_size it.used)
          ↔ ¬(it.used < i.min_unit) ∧ ¬(it.used > i.max_unit)
            ∧ it.used % i.step_size ≠ 0)
        ∧ (check_provider_capacity db claim = Except.error
            (PyExc.capacityExceeded it.provider.uuid it.resource_type
              it.used i.total (tableUsage db it.provider.id (rtD db it))
              i.reserved i.allocation_ratio)
          ↔ ¬(it.used < i.min_unit) ∧ ¬(it.used > i.max_unit)
            ∧ it.used % i.step_size = 0
            ∧ ((i.total : ℚ) - (i.reserved : ℚ)) * i.allocation_ratio
              < (tableUsage db it.provider.id (rtD db it) : ℚ)
                + (it.used : ℚ)))) := by
  have hcomp := check_provider_capacity_eq db claim hres
  have hiff := fun it hit => pusUsageAt_claim_iff db claim it hit hpid hinv
  rcases checkMissingLoop_cases db (claimPus db claim)
      claim.allocation_items hres with
    ⟨hmok, hallp⟩ | ⟨⟨mu, mr, hmerr⟩, hnallp⟩
  · -- missing loop passed: singleton classification first
    have hd : ∀ it, claim.allocation_items = [it] →
        ∀ i ∈ db.inventories, i.provider_id = it.provider.id →
        i.resource_type_id = rtD db it →
        (∃ p ∈ db.providers, p.id = it.provider.id) →
        check_provider_capacity db claim
          = (if it.used < i.min_unit then
              Except.error (PyExc.minUnitViolation it.provider.uuid
                it.resource_type i.min_unit it.used)
            else if it.used > i.max_unit then
              Except.error (PyExc.maxUnitViolation it.provider.uuid
                it.resource_type i.max_unit it.used)
            else if it.used % i.step_size ≠ 0 then
              Except.error (PyExc.stepSizeViolation it.provider.uuid
                it.resource_type i.step_size it.used)
            else if ((i.total : ℚ) - (i.reserved : ℚ))
                * i.allocation_ratio
                < (tableUsage db it.provider.id (rtD db it) : ℚ)
                  + (it.used : ℚ) then
              Except.error (PyExc.capacityExceeded it.provider.uuid
                it.resource_type it.used i.total
                (tableUsage db it.provider.id (rtD db it)) i.reserved
                i.allocation_ratio)
            else Except.ok (dictOfRows ((claimPus db claim).map
              (fun kv => (kv.2.provider.uuid, kv.2.provider))))) := by
      intro it hitems i hi hieq hirt hp
      obtain ⟨p, hpmem, hpeq⟩ := hp
      have hit : it ∈ claim.allocation_items := by rw [hitems]; simp
      have hsome := pusUsageAt_claim_some db claim it hit hpid hinv
        p hpmem hpeq i hi hieq hirt
      obtain ⟨pu, hpu, hul⟩ := pusUsageAt_eq_some _ _ _ _ hsome
      obtain ⟨rt0, hrt0⟩ := Option.isSome_iff_exists.mp (hres it hit)
      have hrtD : catalogLookup db.resource_types it.resource_type
          = some (rtD db it) := by
        rw [hrt0]
        simp [rtD, hrt0]
      have hm1 : checkMissingLoop db (claimPus db claim) [it]
          = Except.ok () := by
        rw [← hitems]
        exact hmok
      have hunits1 : checkUnitsLoop db (claimPus db claim) [it]
          = (if it.used < i.min_unit then
              Except.error (PyExc.minUnitViolation it.provider.uuid
                it.resource_type i.min_unit it.used)
            else if it.used > i.max_unit then
              Except.error (PyExc.maxUnitViolation it.provider.uuid
                it.resource_type i.max_unit it.used)
            else if it.used % i.step_size ≠ 0 then
              Except.error (PyExc.stepSizeViolation it.provider.uuid
                it.resource_type i.step_size it.used)
            else if ((i.total : ℚ) - (i.reserved : ℚ))
                * i.allocation_ratio
                < (tableUsage db it.provider.id (rtD db it) : ℚ)
                  + (it.used : ℚ) then
              Except.error (PyExc.capacityExceeded it.provider.uuid
                it.resource_type it.used i.total
                (tableUsage db it.provider.id (rtD db it)) i.reserved
                i.allocation_ratio)
            else Except.ok ()) := by
        rw [checkUnitsLoop_cons_eq db (claimPus db claim) it []
          (rtD db it) pu hrtD hpu, hul]
        rfl
      have hcomp2 : check_provider_capacity db claim = (do
          checkMissingLoop db (claimPus db claim) [it]
          checkUnitsLoop db (claimPus db claim) [it]
          pure (dictOfRows ((claimPus db claim).map
            (fun kv => (kv.2.provider.uuid, kv.2.provider))))) := by
        rw [hcomp, hitems]
      rw [hcomp2, except_seq_cases, hm1, hunits1, except_match_if,
        except_match_if, except_match_if, except_match_if]
    have hdiffs : ∀ it, claim.allocation_items = [it] →
        ∀ i ∈ db.inventories, i.provider_id = it.provider.id →
        i.resource_type_id = rtD db it →
        (∃ p ∈ db.providers, p.id = it.provider.id) →
        ((check_provider_capacity db claim = Except.error
            (PyExc.minUnitViolation it.provider.uuid it.resource_type
              i.min_unit it.used)
          ↔ it.used < i.min_unit)
        ∧ (check_provider_capacity db claim = Except.error
            (PyExc.maxUnitViolation it.provider.uuid it.resource_type
              i.max_unit it.used)
          ↔ ¬(it.used < i.min_unit) ∧ it.used > i.max_unit)
        ∧ (check_provider_capacity db claim = Except.error
            (PyExc.stepSizeViolation it.provider.uuid it.resource_type
              i.step_size it.used)
          ↔ ¬(it.used < i.min_unit) ∧ ¬(it.used > i.max_unit)
            ∧ it.used % i.step_size ≠ 0)
        ∧ (check_provider_capacity db claim = Except.error
            (PyExc.capacityExceeded it.provider.uuid it.resource_type
              it.used i.total (tableUsage db it.provider.id (rtD db it))
              i.reserved i.allocation_ratio)
          ↔ ¬(it.used < i.min_unit) ∧ ¬(it.used > i.max_unit)
            ∧ it.used % i.step_size = 0
            ∧ ((i.total : ℚ) - (i.reserved : ℚ)) * i.allocation_ratio
              < (tableUsage db it.provider.id (rtD db it) : ℚ)
                + (it.used : ℚ))) := by
      intro it hitems i hi hieq hirt hp
      have hfin := hd it hitems i hi hieq hirt hp
      have hchain := ifchain_cases
        (it.used < i.min_unit) (it.used > i.max_unit)
        (it.used % i.step_size ≠ 0)
        (((i.total : ℚ) - (i.reserved : ℚ)) * i.allocation_ratio
          < (tableUsage db it.provider.id (rtD db it) : ℚ)
            + (it.used : ℚ))
        (Except.error (PyExc.minUnitViolation it.provider.uuid
          it.resource_type i.min_unit it.used))
        (Except.error (PyExc.maxUnitViolation it.provider.uuid
          it.resource_type i.max_unit it.used))
        (Except.error (PyExc.stepSizeViolation it.provider.uuid
          it.resource_type i.step_size it.used))
        (Except.error (PyExc.capacityExceeded it.provider.uuid
          it.resource_type it.used i.total
          (tableUsage db it.provider.id (rtD db it)) i.reserved
          i.allocation_ratio))
        (Except.ok (dictOfRows ((claimPus db claim).map
          (fun kv => (kv.2.provider.uuid, kv.2.provider)))))
        (by simp) (by simp) (by simp) (by simp) (by simp) (by simp)
        (by simp) (by simp) (by simp) (by simp)
      rw [hfin]
      refine ⟨hchain.1, hchain.2.1, hchain.2.2.1, ?_⟩
      rw [hchain.2.2.2]
      constructor
      · rintro ⟨a, b, c, d⟩
        exact ⟨a, b, not_not.mp c, d⟩
      · rintro ⟨a, b, c, d⟩
        exact ⟨a, b, fun hne => hne c, d⟩
    rcases checkUnitsLoop_cases db (claimPus db claim)
        claim.allocation_items hres hallp with
      ⟨huok, hallpass⟩ | ⟨⟨e, herr, hform⟩, hnallpass⟩
    · -- both loops passed
      have hresult : check_provider_capacity db claim = Except.ok
          (dictOfRows ((claimPus db claim).map
            (fun kv => (kv.2.provider.uuid, kv.2.provider)))) := by
        rw [hcomp, except_seq_cases, hmok, huok]
      refine ⟨?_, ?_, ?_, hdiffs⟩
      · constructor
        · rintro ⟨u, r, habs⟩
          rw [hresult] at habs
          cases habs
        · rintro ⟨it, hit, hno⟩
          exact absurd ((hiff it hit).2.2.mp (hallp it hit)) hno
      · constructor
        · rintro ⟨m, _⟩
          intro it hit
          have hhas := (hiff it hit).2.2.mp (hallp it hit)
          obtain ⟨i, hi, hieq, hirt, hsome⟩ := (hiff it hit).1 hhas
          exact ⟨hhas, i, hi, hieq, hirt, hallpass it hit _ hsome⟩
        · intro _
          exact ⟨_, hresult⟩
      · intro m hm it hit prow hprow hpeq
        rw [hresult] at hm
        rw [← Except.ok.inj hm]
        have hhas := (hiff it hit).2.2.mp (hallp it hit)
        obtain ⟨i, hi, hieq, hirt, hsome⟩ := (hiff it hit).1 hhas
        obtain ⟨pu, hpu, hul⟩ := pusUsageAt_eq_some _ _ _ _ hsome
        have hpuprov : pu.provider
            = ⟨it.provider.id, prow.uuid, prow.generation⟩ := by
          refine pus_provider_foldl (check_recs db claim.acquire_time
            claim.release_time (claimPids claim) (claimRtIds db claim))
            [] it.provider.id prow.uuid prow.generation ?_
            (fun pu h => by cases h) pu hpu
          intro r hr hrid
          rcases (mem_check_recs db claim.acquire_time claim.release_time
              (claimPids claim) (claimRtIds db claim) r).mp hr with
            ⟨p2, hp2, i2, hi2, -, -, -, hreq⟩
          have hpid2 : p2.id = prow.id := by
            have h1 : r.provider_id = p2.id := by rw [hreq]; rfl
            rw [h1] at hrid
            rw [hrid, hpeq]
          have hpp : p2 = prow :=
            List.inj_on_of_nodup_map hpid hp2 hprow hpid2
          constructor
          · show r.provider_uuid = prow.uuid
            rw [hreq]
            show p2.uuid = prow.uuid
            rw [hpp]
          · show r.provider_generation = prow.generation
            rw [hreq]
            show p2.generation = prow.generation
            rw [hpp]
        have hrecsR : ∀ r ∈ check_recs db claim.acquire_time
            claim.release_time (claimPids claim) (claimRtIds db claim),
            (fun k pr => ∃ row ∈ db.providers, k = row.id
              ∧ pr = (⟨row.id, row.uuid, row.generation⟩ : Provider))
              r.provider_id
              (⟨r.provider_id, r.provider_uuid, r.provider_generation⟩
                : Provider) := by
          intro r hr
          rcases (mem_check_recs db claim.acquire_time
              claim.release_time (claimPids claim)
              (claimRtIds db claim) r).mp hr with
            ⟨p2, hp2, i2, hi2, -, -, -, hreq⟩
          refine ⟨p2, hp2, ?_, ?_⟩
          · rw [hreq]
            rfl
          · rw [hreq]
            rfl
        apply mem_dictUpdate
        · right
          refine List.mem_map.mpr ⟨(it.provider.id, pu), ?_, ?_⟩
          · exact assocLookup_mem _ _ _ hpu
          · show (pu.provider.uuid, pu.provider)
              = (prow.uuid, (⟨prow.id, prow.uuid, prow.generation⟩
                : Provider))
            rw [hpuprov, ← hpeq]
        · intro kv hkv hkey
          rcases List.mem_map.mp hkv with ⟨entry, hentry, hkveq⟩
          have hinvr := foldl_addCheckRec_provider_inv
            (check_recs db claim.acquire_time claim.release_time
              (claimPids claim) (claimRtIds db claim)) []
            (fun k pr => ∃ row ∈ db.providers, k = row.id
              ∧ pr = (⟨row.id, row.uuid, row.generation⟩ : Provider))
            (fun kv h => absurd h (List.not_mem_nil kv))
            hrecsR entry hentry
          obtain ⟨row, hrow, -, hpreq⟩ := hinvr
          have h2 : kv.2 = (⟨row.id, row.uuid, row.generation⟩
              : Provider) := by
            rw [← hkveq]
            exact hpreq
          have h1 : row.uuid = prow.uuid := by
            have hk1 : kv.1 = row.uuid := by
              rw [← hkveq]
              show entry.2.provider.uuid = row.uuid
              rw [hpreq]
            rw [← hk1, hkey]
          have hrp : row = prow :=
            List.inj_on_of_nodup_map huuid hrow hprow h1
          rw [h2, hrp]
    · -- units loop failed
      have hresult : check_provider_capacity db claim
          = Except.error e := by
        rw [hcomp, except_seq_cases, hmok, herr]
      refine ⟨?_, ?_, ?_, hdiffs⟩
      · constructor
        · rintro ⟨u, r, habs⟩
          rw [hresult] at habs
          have he : e = PyExc.missingInventory u r :=
            Except.error.inj habs
          rw [he] at hform
          cases hform
        · rintro ⟨it, hit, hno⟩
          exact absurd ((hiff it hit).2.2.mp (hallp it hit)) hno
      · constructor
        · rintro ⟨m, hm⟩
          rw [hresult] at hm
          cases hm
        · intro hall
          exfalso
          apply hnallpass
          intro it hit u hu
          obtain ⟨hhas, i, hi, hieq, hirt, hpass⟩ := hall it hit
          obtain ⟨ii, hii, hiieq, hiirt, hsome⟩ := (hiff it hit).1 hhas
          have hiu : u = itemUsageOf db it ii := by
            rw [hu] at hsome
            exact Option.some.inj hsome
          have hii2 : ii = i := by
            apply List.inj_on_of_nodup_map hinv hii hi
            show (ii.provider_id, ii.resource_type_id)
              = (i.provider_id, i.resource_type_id)
            rw [hiieq, hiirt, hieq, hirt]
          rw [hiu, hii2]
          exact hpass
      · intro m hm
        rw [hresult] at hm
        cases hm
  · -- missing loop failed
    have hresult : check_provider_capacity db claim
        = Except.error (PyExc.missingInventory mu mr) := by
      rw [hcomp, except_seq_cases, hmerr]
    have hbad : ∃ it ∈ claim.allocation_items,
        ¬ itemHasInventory db it := by
      by_contra hno
      push_neg at hno
      exact hnallp (fun it hit => ((hiff it hit).2.2).mpr (hno it hit))
    refine ⟨⟨fun _ => hbad, fun _ => ⟨mu, mr, hresult⟩⟩, ?_, ?_, ?_⟩
    · constructor
      · rintro ⟨m, hm⟩
        rw [hresult] at hm
        cases hm
      · intro hall
        exfalso
        obtain ⟨it, hit, hno⟩ := hbad
        exact hno (hall it hit).1
    · intro m hm
      rw [hresult] at hm
      cases hm
    · intro it hitems i hi hieq hirt hp
      exfalso
      obtain ⟨x, hx, hnox⟩ := hbad
      have hxit : x = it := by
        rw [hitems] at hx
        simpa using hx
      subst hxit
      exact hnox ⟨hp, i, hi, hieq, hirt⟩

/-- Witness for C4: on `dbTwo` a one-item claim of 4 units of `r` on
provider `u1` passes every check; the returned map carries `u1`'s
current generation. -/
theorem C4_check_provider_capacity_spec_witness :
    ∃ m, check_provider_capacity dbTwo
        ⟨10, 20, [⟨⟨1, "u1", 0⟩, "r", 4⟩], [(0, 0)]⟩ = Except.ok m
      ∧ ("u1", (⟨1, "u1", 1⟩ : Provider)) ∈ m := by
  have h := C4_check_provider_capacity_spec dbTwo
    ⟨10, 20, [⟨⟨1, "u1", 0⟩, "r", 4⟩], [(0, 0)]⟩
    (by decide) (by decide) (by decide) (by decide)
  have hok : check_provider_capacity dbTwo
      ⟨10, 20, [⟨⟨1, "u1", 0⟩, "r", 4⟩], [(0, 0)]⟩
      = Except.ok [("u1", (⟨1, "u1", 1⟩ : Provider))] := by
    with_unfolding_all rfl
  exact ⟨_, hok, h.2.2.1 _ hok ⟨⟨1, "u1", 0⟩ , "r", 4⟩
    (List.mem_singleton.mpr rfl) ⟨1, "u1", 1⟩ (List.Mem.head _) rfl⟩
